import Mathlib

/-!
# nnabla: the Dropout operator and two elementwise transforms

A shallow embedding of `Dropout<T>` (`src/nbla/function/generic/dropout.cpp`)
with the buffers and generators it touches, and of the transforms `Ceil`
(`ceil.hpp`) and `PowScalar` (`pow_scalar.hpp`).

* Element values (`T`, and the `double` probability) are exact rationals:
  rounding is not modelled, only the arithmetic the code writes down.
* `std::mt19937` and `std::bernoulli_distribution` are library code; they
  enter as the fields of `StdRandom`, a generator state type with its seeding
  constructor, its raw draw and the Bernoulli draw built on it.
* A `for (int s = 0; s < n; s++)` loop is `forLoop n body`; the model covers
  sizes that fit the `int` index.
-/

namespace nbla

/-! ## Library collaborators -/

/-- The standard library's random facilities over a generator state `G`:
`mt19937 v` is the generator constructed from the seed value `v`, `next g`
is the call `g()` (value drawn and advanced generator) and `bernoulli q g` is
`std::bernoulli_distribution(q)(g)`. -/
structure StdRandom (G : Type) where
  mt19937 : Nat → G
  next : G → Nat × G
  bernoulli : ℚ → G → Bool × G

/-- The error codes `NBLA_CHECK` can raise here. -/
inductive error_code where
  | value
  deriving DecidableEq, Repr

/-- Modelled from the spec: the Buffer/Variable collaborator (`variable.hpp`
is not part of the sources). A variable "owns a data array ... with shape,
size, lazy allocation, and explicit release": `data = none` is an array that
is not allocated (never touched, or released). -/
structure Variable where
  shape : List Nat
  data : Option (List ℚ)
  deriving DecidableEq, Repr

/-- Number of elements of a variable, the product of its dimensions. -/
def Variable.size (v : Variable) : Nat := v.shape.prod

/-- Modelled from the spec: `make_shared<Variable>(shape)`, a variable of the
given shape whose array is allocated lazily. -/
def Variable.make (shape : List Nat) : Variable := { shape := shape, data := none }

/-- Modelled from the spec: `reshape(shape, true)` ("reshape-with-force"). The
array is kept when the element count is unchanged and dropped otherwise. -/
def Variable.reshape (v : Variable) (shape : List Nat) : Variable :=
  if shape.prod = v.size then { v with shape := shape } else { shape := shape, data := none }

/-- Modelled from the spec: the array behind a data pointer. An allocated
array of the variable's size is handed out as it is; otherwise the lazy
allocation yields a zero-filled array of `size` elements. A write-only access
gets the same array: its old contents are there but carry no meaning. -/
def Variable.array (v : Variable) : List ℚ :=
  match v.data with
  | some a => if a.length = v.size then a else List.replicate v.size 0
  | none => List.replicate v.size 0

/-- Modelled from the spec: `data()->array()->clear()`, the explicit release. -/
def Variable.clear (v : Variable) : Variable := { v with data := none }

/-- The C loop `for (int s = 0; s < n; s++) body`, as a state transformer. -/
def forLoop {σ : Type} (n : Nat) (body : Nat → σ → σ) (init : σ) : σ :=
  (List.range n).foldl (fun st s => body s st) init

/-- Conversion of a `bool` draw to an element value. -/
def boolToT (b : Bool) : ℚ := if b then 1 else 0

/-! ## The operator -/

/-- The member variables of `Dropout<T>`. -/
structure Dropout (G : Type) where
  p_ : ℚ
  seed_ : Int
  scale_ : ℚ
  rgen_ : G
  rdist_ : ℚ
  save_rng_ : Bool
  rgen_for_recompute_ : G
  mask_ : Variable

/-- The seed handed to `std::mt19937`: `seed_ == -1 ? rdev_() : seed_`, an
`unsigned int` (the `int` seed is converted modulo `2^32`). `rdev` is what
`std::random_device` returns; it is only consulted when `seed_ == -1`. -/
def seed_value (seed : Int) (rdev : Nat) : Nat :=
  if seed = -1 then rdev else (seed % 2 ^ 32).toNat

/-- `Dropout<T>::setup_impl`. `in_shape` is `inputs[0]->shape()` and `out` is
`outputs[0]`; the result is the operator after setup with the reshaped
output, or the error raised by `NBLA_CHECK`. The call `set_dropout_mask`
only hands the new mask variable to `dropout_backward`, a different function;
it changes nothing here and is left out. -/
def setup_impl {G : Type} (R : StdRandom G) (d : Dropout G) (rdev : Nat)
    (in_shape : List Nat) (out : Variable) : Except error_code (Dropout G × Variable) :=
  if 0 ≤ d.p_ ∧ d.p_ < 1 then
    let out1 := out.reshape in_shape
    .ok ({ d with
            mask_ := Variable.make in_shape
            rgen_ := R.mt19937 (seed_value d.seed_ rdev)
            rdist_ := 1 - d.p_
            scale_ := 1 / (1 - d.p_) }, out1)
  else
    .error error_code.value

/-- `Dropout<T>::setup_recompute_impl`. -/
def setup_recompute_impl {G : Type} (d : Dropout G) : Dropout G :=
  { d with save_rng_ := true }

/-- The three things the loop of `dropout` writes: the mask array `m`, the
output array `y` and the generator it draws from. -/
structure DropoutLoop (G : Type) where
  m : List ℚ
  y : List ℚ
  rgen : G

/-- One iteration of the loop of `dropout`:
`m[s] = rdist_(rgen); y[s] = x[s] * m[s] * scale_;`. -/
def dropout_body {G : Type} (R : StdRandom G) (d : Dropout G) (x : List ℚ)
    (s : Nat) (st : DropoutLoop G) : DropoutLoop G :=
  let r := R.bernoulli d.rdist_ st.rgen
  let m1 := st.m.set s (boolToT r.1)
  { m := m1
    y := st.y.set s (x.getD s 0 * m1.getD s 0 * d.scale_)
    rgen := r.2 }

/-- `Dropout<T>::dropout`. `x` is the data of `inputs[0]` (its length is
`inputs[0]->size()`), `out` is `outputs[0]`, `rgen` the generator passed by
reference: the generator left behind is part of the result. -/
def dropout {G : Type} (R : StdRandom G) (d : Dropout G) (x : List ℚ) (out : Variable)
    (rgen : G) : Dropout G × Variable × G :=
  let y := out.array
  let m := d.mask_.array
  let r := forLoop x.length (dropout_body R d x) { m := m, y := y, rgen := rgen }
  ({ d with mask_ := { d.mask_ with data := some r.m } }, { out with data := some r.y }, r.rgen)

/-- The operator together with what it shares with the rest of the process:
the generator of `RandomManager`, the output variable `outputs[0]` and the
gradient array of `inputs[0]`. -/
structure World (G : Type) where
  op : Dropout G
  shared : G
  out : Variable
  dx : List ℚ

/-- `Dropout<T>::forward_impl`. The reference `rgen` is bound to the shared
generator when `seed_ == -1` and to the member `rgen_` otherwise; the draws
made by `dropout` advance whichever it is bound to. -/
def forward_impl {G : Type} (R : StdRandom G) (w : World G) (x : List ℚ) : World G :=
  let rgen := if w.op.seed_ = -1 then w.shared else w.op.rgen_
  let d1 := if w.op.save_rng_ then { w.op with rgen_for_recompute_ := rgen } else w.op
  let r := dropout R d1 x w.out rgen
  if w.op.seed_ = -1 then
    { w with op := r.1, out := r.2.1, shared := r.2.2 }
  else
    { w with op := { r.1 with rgen_ := r.2.2 }, out := r.2.1 }

/-- `Dropout<T>::recompute_impl`: `dropout` runs on a local copy of
`rgen_for_recompute_`, which is dropped on return. -/
def recompute_impl {G : Type} (R : StdRandom G) (w : World G) (x : List ℚ) : World G :=
  let rgen := w.op.rgen_for_recompute_
  let r := dropout R w.op x w.out rgen
  { w with op := r.1, out := r.2.1 }

/-- `Dropout<T>::clear_buffer`. -/
def clear_buffer {G : Type} (d : Dropout G) : Dropout G :=
  { d with mask_ := d.mask_.clear }

/-- One iteration of the loop of `backward_impl`:
`dx[s] = (accum[0] ? dx[s] : (T)0) + dy[s] * m[s] * scale_;`. -/
def backward_body {G : Type} (d : Dropout G) (dy m : List ℚ) (accum : Bool)
    (s : Nat) (dx : List ℚ) : List ℚ :=
  dx.set s ((if accum then dx.getD s 0 else 0) + dy.getD s 0 * m.getD s 0 * d.scale_)

/-- `Dropout<T>::backward_impl`. `n` is `inputs[0]->size()`, `dy` the gradient
of `outputs[0]`, `propagate_down` and `accum` are the flags of input 0; the
gradient array of `inputs[0]` is `w.dx`. With `accum[0]` false the array is
taken write-only: its old contents are still what the pointer shows, and the
loop does not read them. -/
def backward_impl {G : Type} (w : World G) (n : Nat) (dy : List ℚ)
    (propagate_down accum : Bool) : World G :=
  if !propagate_down then
    w
  else
    let dx := w.dx
    let m := w.op.mask_.array
    let dx1 := forLoop n (backward_body w.op dy m accum) dx
    { w with dx := dx1, op := clear_buffer w.op }

/-- The calls the graph executor makes on a configured operator, with their
arguments. -/
inductive Call where
  | setup_recompute
  | forward (x : List ℚ)
  | recompute (x : List ℚ)
  | backward (n : Nat) (dy : List ℚ) (propagate_down accum : Bool)
  | clear_buffer

/-- Effect of one call. -/
def step {G : Type} (R : StdRandom G) (w : World G) : Call → World G
  | .setup_recompute => { w with op := setup_recompute_impl w.op }
  | .forward x => forward_impl R w x
  | .recompute x => recompute_impl R w x
  | .backward n dy pd ac => backward_impl w n dy pd ac
  | .clear_buffer => { w with op := clear_buffer w.op }

/-- Effect of a sequence of calls, first call first. -/
def run {G : Type} (R : StdRandom G) (w : World G) (calls : List Call) : World G :=
  calls.foldl (step R) w

/-- Whether a call is a forward call. -/
def Call.isForward : Call → Bool
  | .forward _ => true
  | _ => false

/-- Configure: `setup_impl` on the operator of `w` for an input of shape
`in_shape`; the other parts of the world are not touched. -/
def configure {G : Type} (R : StdRandom G) (w : World G) (rdev : Nat)
    (in_shape : List Nat) : Except error_code (World G) :=
  match setup_impl R w.op rdev in_shape w.out with
  | .ok r => .ok { w with op := r.1, out := r.2 }
  | .error e => .error e

/-! ## Reference notions used in the statements -/

/-- The world a successful configure leaves behind. -/
def configured {G : Type} (R : StdRandom G) (w : World G) (rdev : Nat)
    (in_shape : List Nat) : World G :=
  { w with
    op := { w.op with
            mask_ := Variable.make in_shape
            rgen_ := R.mt19937 (seed_value w.op.seed_ rdev)
            rdist_ := 1 - w.op.p_
            scale_ := 1 / (1 - w.op.p_) }
    out := w.out.reshape in_shape }

/-- Generator state after `k` successive Bernoulli draws of parameter `q`. -/
def genAfter {G : Type} (R : StdRandom G) (q : ℚ) : Nat → G → G
  | 0, g => g
  | k + 1, g => (R.bernoulli q (genAfter R q k g)).2

/-- The `i`-th successive Bernoulli draw of parameter `q` (counting from 0). -/
def drawAt {G : Type} (R : StdRandom G) (q : ℚ) (i : Nat) (g : G) : Bool :=
  (R.bernoulli q (genAfter R q i g)).1

/-- The generator `forward_impl` draws from. -/
def activeGen {G : Type} (w : World G) : G :=
  if w.op.seed_ = -1 then w.shared else w.op.rgen_

/-- Drawing `n` raw values from a generator: the values in order and the
generator left behind. -/
def drawN {G : Type} (R : StdRandom G) : Nat → G → List Nat × G
  | 0, g => ([], g)
  | n + 1, g =>
    let r := R.next g
    let rest := drawN R n r.2
    (r.1 :: rest.1, rest.2)

/-- The mask of `n` elements whose `i`-th element is the `i`-th successive
Bernoulli draw of parameter `q` from `g`. -/
def maskOf {G : Type} (R : StdRandom G) (q : ℚ) (g : G) (n : Nat) : List ℚ :=
  (List.range n).map (fun i => boolToT (drawAt R q i g))

/-- The output `x[i] * mask[i] * scale` for the mask `maskOf R q g x.length`. -/
def outputOf {G : Type} (R : StdRandom G) (q scale : ℚ) (g : G) (x : List ℚ) : List ℚ :=
  (List.range x.length).map (fun i => x.getD i 0 * boolToT (drawAt R q i g) * scale)

/-- A small concrete generator for evaluating the definitions: a linear
congruential state, raw draw = the state, Bernoulli draw = "state mod 100,
as a percentage, is below `q`". -/
def lcg : StdRandom Nat where
  mt19937 := fun v => v % 2 ^ 32
  next := fun g => (g, (1103515245 * g + 12345) % 2 ^ 31)
  bernoulli := fun q g => (decide (((g % 100 : Nat) : ℚ) / 100 < q), (1103515245 * g + 12345) % 2 ^ 31)

/-- An operator object before setup, with probability `p` and seed `seed`. -/
def newDropout (p : ℚ) (seed : Int) : Dropout Nat :=
  { p_ := p, seed_ := seed, scale_ := 0, rgen_ := 5489, rdist_ := 1 / 2, save_rng_ := false,
    rgen_for_recompute_ := 5489, mask_ := Variable.make [] }

/-- A world around `newDropout p seed` with shared generator `g`. -/
def newWorld (p : ℚ) (seed : Int) (g : Nat) : World Nat :=
  { op := newDropout p seed, shared := g, out := Variable.make [], dx := [] }

/-! ## Elementwise transforms (`ceil.hpp`, `pow_scalar.hpp`)

Element values are exact numbers here too: rationals for `Ceil`, and for
`PowScalar` any type that carries the `<cmath>` functions it calls, the real
numbers in the statements about square roots and powers. -/

/-- Modelled from the spec: what the `NBLA_DEFINE_TRANSFORM_UNARY...` macros
take (`base_transform_unary.hpp` is not part of the sources): "a forward
expression `y = f(x; a0…an)`, a backward expression `dx = g(dy, x, y; a0…an)`".
`op` is the forward expression in `x`, `gop` the backward expression in `dy`,
`x` and `y`; bound coefficients are arguments of the definition that builds
the transform. The flags that follow the two expressions in the macro calls
say which of `x` and `y` backward needs and whether the output may share the
input's storage; they do not enter the values computed. -/
structure TransformUnary (T : Type) where
  op : T → T
  gop : T → T → T → T

/-- Modelled from the spec: forward "applies `f` independently per element". -/
def TransformUnary.forward {T : Type} (f : TransformUnary T) (x : List T) : List T :=
  x.map f.op

/-- Modelled from the spec: the values of the backward expression, element by
element ("applies `g` independently per element"), with `y` the forward
output: the gradient contribution of the transform. -/
def TransformUnary.grad {T : Type} (f : TransformUnary T) (dy x : List T) : List T :=
  List.zipWith (fun d v => f.gop d v (f.op v)) dy x

/-- Modelled from the spec: backward, whose "result is accumulated into or
overwrites the gradient buffer per the accumulate flag". -/
def TransformUnary.backward {T : Type} [Add T] (f : TransformUnary T) (dy x dx : List T)
    (accum : Bool) : List T :=
  if accum then List.zipWith (fun a b => a + b) dx (f.grad dy x) else f.grad dy x

/-- `NBLA_DEFINE_TRANSFORM_UNARY(Ceil, std::ceil(x), dy, false, false)`: the
forward expression is `std::ceil(x)`, the backward expression is `dy`. -/
def Ceil : TransformUnary ℚ where
  op := fun x => ((Int.ceil x : ℤ) : ℚ)
  gop := fun dy _ _ => dy

/-- The `<cmath>` functions `PowScalar` calls on element type `T`, `std::sqrt`
and `std::pow`, and the conversion `(T)a0` of the `double` coefficient. -/
structure StdMath (T : Type) where
  sqrt : T → T
  pow : T → T → T
  cast : ℚ → T

/-- `NBLA_DEFINE_TRANSFORM_UNARY_1_INPLACE(PowScalar, ...)` with coefficient
`a0`: forward expression `a0 == 0.5f ? std::sqrt(x) : std::pow(x, (T)a0)`,
backward expression `dy * (T)a0 * std::pow(x, (T)a0 - (T)1)`. -/
def PowScalar {T : Type} [Mul T] [Sub T] [One T] (M : StdMath T) (a0 : ℚ) :
    TransformUnary T where
  op := fun x => if a0 = 1 / 2 then M.sqrt x else M.pow x (M.cast a0)
  gop := fun dy x _ => dy * M.cast a0 * M.pow x (M.cast a0 - 1)

/-! ## The loops in closed form -/

theorem forLoop_zero {σ : Type} (body : Nat → σ → σ) (init : σ) :
    forLoop 0 body init = init := rfl

theorem forLoop_succ {σ : Type} (n : Nat) (body : Nat → σ → σ) (init : σ) :
    forLoop (n + 1) body init = body n (forLoop n body init) := by
  simp [forLoop, List.range_succ, List.foldl_append]

/-- What the loop of `dropout` has written after `k` iterations. -/
theorem dropout_loop_spec {G : Type} (R : StdRandom G) (d : Dropout G) (x : List ℚ)
    (st0 : DropoutLoop G) (k : Nat) :
    (forLoop k (dropout_body R d x) st0).rgen = genAfter R d.rdist_ k st0.rgen ∧
    (forLoop k (dropout_body R d x) st0).m.length = st0.m.length ∧
    (forLoop k (dropout_body R d x) st0).y.length = st0.y.length ∧
    (∀ i, (forLoop k (dropout_body R d x) st0).m[i]? =
      if i < k ∧ i < st0.m.length then some (boolToT (drawAt R d.rdist_ i st0.rgen))
      else st0.m[i]?) ∧
    (∀ i, (forLoop k (dropout_body R d x) st0).y[i]? =
      if i < k ∧ i < st0.y.length then
        some (x.getD i 0 *
          (if i < st0.m.length then boolToT (drawAt R d.rdist_ i st0.rgen) else 0) * d.scale_)
      else st0.y[i]?) := by
  induction k with
  | zero => simp [forLoop_zero, genAfter]
  | succ k ih =>
    obtain ⟨hg, hlm, hly, hm, hy⟩ := ih
    rw [forLoop_succ]
    refine ⟨?_, ?_, ?_, ?_, ?_⟩
    · simp [dropout_body, hg, genAfter]
    · simp [dropout_body, hlm]
    · simp [dropout_body, hly]
    · intro i
      simp only [dropout_body, List.getElem?_set, hlm, hg, hm]
      by_cases hki : k = i
      · subst hki
        by_cases hk : k < st0.m.length
        · simp [hk, drawAt]
        · simp [hk]; omega
      · have h1 : i < k + 1 ↔ i < k := by omega
        simp [hki, h1]
    · intro i
      simp only [dropout_body, List.getElem?_set, hly, hlm, hg, hy, List.getD_eq_getElem?_getD]
      by_cases hki : k = i
      · subst hki
        by_cases hk : k < st0.y.length
        · by_cases hk2 : k < st0.m.length <;> simp [hk, hk2, drawAt]
        · simp [hk]; omega
      · have h1 : i < k + 1 ↔ i < k := by omega
        simp [hki, h1]

/-- What the loop of `backward_impl` has written after `k` iterations. -/
theorem backward_loop_spec {G : Type} (d : Dropout G) (dy m : List ℚ) (accum : Bool)
    (dx0 : List ℚ) (k : Nat) :
    (forLoop k (backward_body d dy m accum) dx0).length = dx0.length ∧
    (∀ i, (forLoop k (backward_body d dy m accum) dx0)[i]? =
      if i < k ∧ i < dx0.length then
        some ((if accum then dx0.getD i 0 else 0) + dy.getD i 0 * m.getD i 0 * d.scale_)
      else dx0[i]?) := by
  induction k with
  | zero => simp [forLoop_zero]
  | succ k ih =>
    obtain ⟨hl, hget⟩ := ih
    rw [forLoop_succ]
    refine ⟨?_, ?_⟩
    · simp [backward_body, hl]
    · intro i
      simp only [backward_body, List.getElem?_set, hl, hget, List.getD_eq_getElem?_getD]
      by_cases hki : k = i
      · subst hki
        by_cases hk : k < dx0.length
        · simp [hk]
        · simp [hk]; omega
      · have h1 : i < k + 1 ↔ i < k := by omega
        simp [hki, h1]

/-! ## Buffers -/

theorem Variable.length_array (v : Variable) : v.array.length = v.size := by
  unfold Variable.array
  split
  · split <;> simp_all
  · simp

theorem Variable.array_of_data {v : Variable} {a : List ℚ} (h : v.data = some a)
    (hl : a.length = v.size) : v.array = a := by
  simp [Variable.array, h, hl]

/-! ## What the calls leave alone -/

/-- The fields fixed at configure time: no later call changes them. -/
def sameConfig {G : Type} (w w1 : World G) : Prop :=
  w1.op.p_ = w.op.p_ ∧ w1.op.seed_ = w.op.seed_ ∧ w1.op.scale_ = w.op.scale_ ∧
  w1.op.rdist_ = w.op.rdist_ ∧ w1.op.mask_.shape = w.op.mask_.shape ∧ w1.out.shape = w.out.shape

theorem step_sameConfig {G : Type} (R : StdRandom G) (w : World G) (c : Call) :
    sameConfig w (step R w c) := by
  cases c with
  | setup_recompute => simp [sameConfig, step, setup_recompute_impl]
  | forward x =>
    by_cases hs : w.op.seed_ = -1 <;> by_cases hr : w.op.save_rng_ = true <;>
      simp [sameConfig, step, forward_impl, dropout, hs, hr]
  | recompute x => simp [sameConfig, step, recompute_impl, dropout]
  | backward n dy pd ac =>
    cases pd <;> simp [sameConfig, step, backward_impl, clear_buffer, Variable.clear]
  | clear_buffer => simp [sameConfig, step, clear_buffer, Variable.clear]

theorem run_sameConfig {G : Type} (R : StdRandom G) (w : World G) (calls : List Call) :
    sameConfig w (run R w calls) := by
  induction calls generalizing w with
  | nil => simp [run, sameConfig]
  | cons c cs ih =>
    have h1 := step_sameConfig R w c
    have h2 := ih (step R w c)
    simp only [run, List.foldl_cons] at h2 ⊢
    simp only [sameConfig] at h1 h2 ⊢
    obtain ⟨a1, a2, a3, a4, a5, a6⟩ := h1
    obtain ⟨b1, b2, b3, b4, b5, b6⟩ := h2
    exact ⟨b1.trans a1, b2.trans a2, b3.trans a3, b4.trans a4, b5.trans a5, b6.trans a6⟩

theorem run_append {G : Type} (R : StdRandom G) (w : World G) (c1 c2 : List Call) :
    run R w (c1 ++ c2) = run R (run R w c1) c2 := by
  simp [run, List.foldl_append]

/-- Once set, the snapshot flag stays set. -/
theorem step_save_rng {G : Type} (R : StdRandom G) (w : World G) (c : Call)
    (h : w.op.save_rng_ = true) : (step R w c).op.save_rng_ = true := by
  cases c with
  | setup_recompute => simp [step, setup_recompute_impl]
  | forward x =>
    by_cases hs : w.op.seed_ = -1 <;> simp [step, forward_impl, dropout, hs, h]
  | recompute x => simp [step, recompute_impl, dropout, h]
  | backward n dy pd ac => cases pd <;> simp [step, backward_impl, clear_buffer, h]
  | clear_buffer => simp [step, clear_buffer, h]

theorem run_save_rng {G : Type} (R : StdRandom G) (w : World G) (calls : List Call)
    (h : w.op.save_rng_ = true) : (run R w calls).op.save_rng_ = true := by
  induction calls generalizing w with
  | nil => simpa [run] using h
  | cons c cs ih =>
    simp only [run, List.foldl_cons]
    exact ih (step R w c) (step_save_rng R w c h)

/-- An operator with an explicit seed never touches the shared generator. -/
theorem step_shared_of_seeded {G : Type} (R : StdRandom G) (w : World G) (c : Call)
    (h : w.op.seed_ ≠ -1) : (step R w c).shared = w.shared := by
  cases c with
  | setup_recompute => simp [step]
  | forward x => simp [step, forward_impl, h]
  | recompute x => simp [step, recompute_impl]
  | backward n dy pd ac => cases pd <;> simp [step, backward_impl]
  | clear_buffer => simp [step]

/-! ## `dropout` on buffers of the input's size -/

theorem dropout_gen {G : Type} (R : StdRandom G) (d : Dropout G) (x : List ℚ)
    (out : Variable) (g : G) :
    (dropout R d x out g).2.2 = genAfter R d.rdist_ x.length g := by
  simp [dropout, (dropout_loop_spec R d x ⟨d.mask_.array, out.array, g⟩ x.length).1]

/-- When mask and output have as many elements as the input, `dropout`
overwrites both completely: nothing of their old contents is left. -/
theorem dropout_full {G : Type} (R : StdRandom G) (d : Dropout G) (x : List ℚ)
    (out : Variable) (g : G) (hm : d.mask_.size = x.length) (ho : out.size = x.length) :
    dropout R d x out g =
      ({ d with mask_ := { d.mask_ with data := some (maskOf R d.rdist_ g x.length) } },
       { out with data := some (outputOf R d.rdist_ d.scale_ g x) },
       genAfter R d.rdist_ x.length g) := by
  obtain ⟨hg, _, _, hm1, hy1⟩ := dropout_loop_spec R d x ⟨d.mask_.array, out.array, g⟩ x.length
  dsimp only at hm1 hy1
  simp only [Variable.length_array, hm, ho] at hm1 hy1
  have hM : (forLoop x.length (dropout_body R d x) ⟨d.mask_.array, out.array, g⟩).m
      = maskOf R d.rdist_ g x.length := by
    apply List.ext_getElem?
    intro i
    rw [hm1 i]
    by_cases hi : i < x.length
    · simp [maskOf, hi, List.getElem?_range]
    · have h1 : d.mask_.array.length ≤ i := by rw [Variable.length_array, hm]; omega
      have h2 : (List.range x.length)[i]? = none :=
        List.getElem?_eq_none (by rw [List.length_range]; omega)
      simp [maskOf, hi, List.getElem?_eq_none h1, h2]
  have hY : (forLoop x.length (dropout_body R d x) ⟨d.mask_.array, out.array, g⟩).y
      = outputOf R d.rdist_ d.scale_ g x := by
    apply List.ext_getElem?
    intro i
    rw [hy1 i]
    by_cases hi : i < x.length
    · simp [outputOf, hi, List.getElem?_range]
    · have h1 : out.array.length ≤ i := by rw [Variable.length_array, ho]; omega
      have h2 : (List.range x.length)[i]? = none :=
        List.getElem?_eq_none (by rw [List.length_range]; omega)
      simp [outputOf, hi, List.getElem?_eq_none h1, h2]
  simp only [dropout, hM, hY, hg]

/-- Running `dropout` again from the same generator state, on the buffers the
first run left, writes the same mask and the same output; only `rdist_`,
`scale_` and the mask variable of the operator matter. -/
theorem dropout_again {G : Type} (R : StdRandom G) (d d1 : Dropout G) (x : List ℚ)
    (out : Variable) (g : G) (h1 : d1.rdist_ = d.rdist_) (h2 : d1.scale_ = d.scale_)
    (h3 : d1.mask_ = (dropout R d x out g).1.mask_) :
    (dropout R d1 x (dropout R d x out g).2.1 g).1.mask_ = (dropout R d x out g).1.mask_ ∧
    (dropout R d1 x (dropout R d x out g).2.1 g).2.1 = (dropout R d x out g).2.1 := by
  obtain ⟨_, hlm, hly, hm, hy⟩ :=
    dropout_loop_spec R d x ⟨d.mask_.array, out.array, g⟩ x.length
  dsimp only at hlm hly hm hy
  have hmask : d1.mask_.array
      = (forLoop x.length (dropout_body R d x) ⟨d.mask_.array, out.array, g⟩).m := by
    apply Variable.array_of_data (by rw [h3]; rfl)
    rw [hlm, Variable.length_array, h3]; rfl
  have hout : (dropout R d x out g).2.1.array
      = (forLoop x.length (dropout_body R d x) ⟨d.mask_.array, out.array, g⟩).y := by
    apply Variable.array_of_data rfl
    rw [hly, Variable.length_array]; rfl
  obtain ⟨_, _, _, hm2, hy2⟩ :=
    dropout_loop_spec R d1 x ⟨d1.mask_.array, (dropout R d x out g).2.1.array, g⟩ x.length
  dsimp only at hm2 hy2
  rw [hmask, hout] at hm2 hy2
  simp only [h1, h2, hlm, hly] at hm2 hy2
  have hM : (forLoop x.length (dropout_body R d1 x)
      ⟨d1.mask_.array, (dropout R d x out g).2.1.array, g⟩).m
      = (forLoop x.length (dropout_body R d x) ⟨d.mask_.array, out.array, g⟩).m := by
    rw [hmask, hout]
    apply List.ext_getElem?
    intro i
    rw [hm2 i, hm i]
    by_cases hc : i < x.length ∧ i < d.mask_.array.length <;> simp [hc]
  have hY : (forLoop x.length (dropout_body R d1 x)
      ⟨d1.mask_.array, (dropout R d x out g).2.1.array, g⟩).y
      = (forLoop x.length (dropout_body R d x) ⟨d.mask_.array, out.array, g⟩).y := by
    rw [hmask, hout]
    apply List.ext_getElem?
    intro i
    rw [hy2 i, hy i]
    by_cases hc : i < x.length ∧ i < out.array.length <;> simp [hc]
  constructor
  · have e : (dropout R d1 x (dropout R d x out g).2.1 g).1.mask_
        = { shape := d1.mask_.shape,
            data := some (forLoop x.length (dropout_body R d1 x)
              ⟨d1.mask_.array, (dropout R d x out g).2.1.array, g⟩).m } := rfl
    rw [e, hM, h3]; rfl
  · have e : (dropout R d1 x (dropout R d x out g).2.1 g).2.1
        = { shape := (dropout R d x out g).2.1.shape,
            data := some (forLoop x.length (dropout_body R d1 x)
              ⟨d1.mask_.array, (dropout R d x out g).2.1.array, g⟩).y } := rfl
    rw [e, hY]; rfl

/-! ## Configure and forward -/

/-- What a successful configure fixes: the operator fields and the shapes. -/
theorem configure_ok {G : Type} (R : StdRandom G) (w : World G) (rdev : Nat)
    (in_shape : List Nat) (h0 : 0 ≤ w.op.p_) (h1 : w.op.p_ < 1) :
    configure R w rdev in_shape = .ok (configured R w rdev in_shape) := by
  simp [configure, configured, setup_impl, h0, h1]

theorem configure_error {G : Type} (R : StdRandom G) (w : World G) (rdev : Nat)
    (in_shape : List Nat) (h : ¬ (0 ≤ w.op.p_ ∧ w.op.p_ < 1)) :
    configure R w rdev in_shape = .error error_code.value := by
  simp only [configure, setup_impl, if_neg h]

/-- A successful configure had a valid probability. -/
theorem configure_valid {G : Type} (R : StdRandom G) (w w1 : World G) (rdev : Nat)
    (in_shape : List Nat) (hc : configure R w rdev in_shape = .ok w1) :
    0 ≤ w.op.p_ ∧ w.op.p_ < 1 := by
  by_contra h
  rw [configure_error R w rdev in_shape h] at hc
  cases hc

theorem Variable.shape_reshape (v : Variable) (shape : List Nat) :
    (v.reshape shape).shape = shape := by
  unfold Variable.reshape
  split <;> rfl

/-- Forward on an operator whose mask and output have the input's element
count, in closed form. -/
theorem forward_impl_full {G : Type} (R : StdRandom G) (w : World G) (x : List ℚ)
    (hm : w.op.mask_.size = x.length) (ho : w.out.size = x.length) :
    (forward_impl R w x).op.mask_.data = some (maskOf R w.op.rdist_ (activeGen w) x.length) ∧
    (forward_impl R w x).out.data
      = some (outputOf R w.op.rdist_ w.op.scale_ (activeGen w) x) := by
  have key : ∀ (d1 : Dropout G) (g : G), d1.mask_ = w.op.mask_ → d1.rdist_ = w.op.rdist_ →
      d1.scale_ = w.op.scale_ →
      (dropout R d1 x w.out g).1.mask_.data = some (maskOf R w.op.rdist_ g x.length) ∧
      (dropout R d1 x w.out g).2.1.data = some (outputOf R w.op.rdist_ w.op.scale_ g x) := by
    intro d1 g e1 e2 e3
    rw [dropout_full R d1 x w.out g (by rw [e1]; exact hm) ho, e2, e3]
    exact ⟨rfl, rfl⟩
  by_cases hs : w.op.seed_ = -1 <;> by_cases hr : w.op.save_rng_ = true
  all_goals
    simp only [forward_impl, hs, hr, if_true, if_false, activeGen, Bool.false_eq_true]
    exact key _ _ rfl rfl rfl

theorem getElem?_maskOf {G : Type} (R : StdRandom G) (q : ℚ) (g : G) (n i : Nat)
    (hi : i < n) : (maskOf R q g n)[i]? = some (boolToT (drawAt R q i g)) := by
  simp [maskOf, List.getElem?_range hi]

theorem getElem?_outputOf {G : Type} (R : StdRandom G) (q scale : ℚ) (g : G) (x : List ℚ)
    (i : Nat) (hi : i < x.length) :
    (outputOf R q scale g x)[i]? = some (x[i] * boolToT (drawAt R q i g) * scale) := by
  simp [outputOf, List.getElem?_range hi, List.getElem?_eq_getElem hi]

/-! ## Forward, recompute and the generators -/

theorem seed_value_of_seeded (seed : Int) (rdev1 rdev2 : Nat) (h : seed ≠ -1) :
    seed_value seed rdev1 = seed_value seed rdev2 := by
  simp [seed_value, h]

/-- With the snapshot flag set, a recompute right after a forward writes the
mask and the output that forward wrote. -/
theorem recompute_after_forward {G : Type} (R : StdRandom G) (w : World G) (x : List ℚ)
    (h : w.op.save_rng_ = true) :
    (recompute_impl R (forward_impl R w x) x).op.mask_ = (forward_impl R w x).op.mask_ ∧
    (recompute_impl R (forward_impl R w x) x).out = (forward_impl R w x).out := by
  by_cases hs : w.op.seed_ = -1
  · simp only [forward_impl, recompute_impl, hs, h, if_true]
    exact dropout_again R _ _ x w.out _ rfl rfl rfl
  · simp only [forward_impl, recompute_impl, hs, h, if_true, if_false]
    exact dropout_again R _ _ x w.out _ rfl rfl rfl

/-- A second recompute changes nothing. -/
theorem recompute_idem {G : Type} (R : StdRandom G) (w : World G) (x : List ℚ) :
    recompute_impl R (recompute_impl R w x) x = recompute_impl R w x := by
  obtain ⟨h1, h2⟩ := dropout_again R w.op (dropout R w.op x w.out w.op.rgen_for_recompute_).1 x
    w.out w.op.rgen_for_recompute_ rfl rfl rfl
  have e : recompute_impl R (recompute_impl R w x) x =
      { op := { (dropout R w.op x w.out w.op.rgen_for_recompute_).1 with
                mask_ := (dropout R (dropout R w.op x w.out w.op.rgen_for_recompute_).1 x
                  (dropout R w.op x w.out w.op.rgen_for_recompute_).2.1
                  w.op.rgen_for_recompute_).1.mask_ }
        shared := w.shared
        out := (dropout R (dropout R w.op x w.out w.op.rgen_for_recompute_).1 x
                  (dropout R w.op x w.out w.op.rgen_for_recompute_).2.1
                  w.op.rgen_for_recompute_).2.1
        dx := w.dx } := rfl
  rw [e, h1, h2]
  rfl

theorem Variable.eq_of_shape_data {v1 v2 : Variable} (hs : v1.shape = v2.shape)
    (hd : v1.data = v2.data) : v1 = v2 := by
  cases v1
  cases v2
  simp_all

/-- Only forward writes the snapshot. -/
theorem step_snapshot {G : Type} (R : StdRandom G) (w : World G) (c : Call)
    (h : c.isForward = false) :
    (step R w c).op.rgen_for_recompute_ = w.op.rgen_for_recompute_ := by
  cases c with
  | setup_recompute => rfl
  | forward x => simp [Call.isForward] at h
  | recompute x => rfl
  | backward n dy pd ac => cases pd <;> rfl
  | clear_buffer => rfl

theorem run_snapshot {G : Type} (R : StdRandom G) (w : World G) (calls : List Call)
    (h : ∀ c ∈ calls, c.isForward = false) :
    (run R w calls).op.rgen_for_recompute_ = w.op.rgen_for_recompute_ := by
  induction calls generalizing w with
  | nil => rfl
  | cons c cs ih =>
    simp only [run, List.foldl_cons]
    have h1 := ih (step R w c) (fun c1 hc1 => h c1 (List.mem_cons_of_mem _ hc1))
    simp only [run] at h1
    rw [h1, step_snapshot R w c (h c (List.mem_cons_self _ _))]

/-- With the snapshot flag set, forward stores the generator it is about to
draw from. -/
theorem forward_snapshot {G : Type} (R : StdRandom G) (w : World G) (x : List ℚ)
    (h : w.op.save_rng_ = true) :
    (forward_impl R w x).op.rgen_for_recompute_ = activeGen w := by
  by_cases hs : w.op.seed_ = -1 <;> simp [forward_impl, dropout, activeGen, hs, h]

/-- Recompute on an operator whose mask and output have the input's element
count, in closed form. -/
theorem recompute_impl_full {G : Type} (R : StdRandom G) (w : World G) (x : List ℚ)
    (hm : w.op.mask_.size = x.length) (ho : w.out.size = x.length) :
    (recompute_impl R w x).op.mask_.data
      = some (maskOf R w.op.rdist_ w.op.rgen_for_recompute_ x.length) ∧
    (recompute_impl R w x).out.data
      = some (outputOf R w.op.rdist_ w.op.scale_ w.op.rgen_for_recompute_ x) := by
  simp only [recompute_impl]
  rw [dropout_full R w.op x w.out _ hm ho]
  exact ⟨rfl, rfl⟩

/-- A forward under the snapshot flag, any calls other than forward, then a
recompute of the same input: on buffers of the input's element count the
recompute leaves the mask and the output of that forward. -/
theorem recompute_after_forward_calls {G : Type} (R : StdRandom G) (w : World G)
    (x : List ℚ) (between : List Call) (h : w.op.save_rng_ = true)
    (hm : w.op.mask_.size = x.length) (ho : w.out.size = x.length)
    (hb : ∀ c ∈ between, c.isForward = false) :
    (recompute_impl R (run R (forward_impl R w x) between) x).op.mask_
      = (forward_impl R w x).op.mask_ ∧
    (recompute_impl R (run R (forward_impl R w x) between) x).out
      = (forward_impl R w x).out := by
  obtain ⟨_, _, f3, f4, f5, f6⟩ := step_sameConfig R w (Call.forward x)
  obtain ⟨_, _, b3, b4, b5, b6⟩ := run_sameConfig R (forward_impl R w x) between
  obtain ⟨_, _, _, _, r5, r6⟩ :=
    step_sameConfig R (run R (forward_impl R w x) between) (Call.recompute x)
  simp only [step] at f3 f4 f5 f6 r5 r6
  have hm1 : (run R (forward_impl R w x) between).op.mask_.size = x.length := by
    rw [Variable.size, b5, f5]; exact hm
  have ho1 : (run R (forward_impl R w x) between).out.size = x.length := by
    rw [Variable.size, b6, f6]; exact ho
  obtain ⟨e1, e2⟩ := forward_impl_full R w x hm ho
  obtain ⟨e3, e4⟩ := recompute_impl_full R _ x hm1 ho1
  rw [run_snapshot R _ between hb, forward_snapshot R w x h, b4, f4] at e3 e4
  rw [b3, f3] at e4
  exact ⟨Variable.eq_of_shape_data (r5.trans b5) (e3.trans e1.symm),
    Variable.eq_of_shape_data (r6.trans b6) (e4.trans e2.symm)⟩

theorem drawN_add {G : Type} (R : StdRandom G) (a b : Nat) (g : G) :
    (drawN R (a + b) g).1 = (drawN R a g).1 ++ (drawN R b (drawN R a g).2).1 := by
  induction a generalizing g with
  | zero => simp [drawN]
  | succ a ih =>
    have e : a + 1 + b = (a + b) + 1 := by omega
    rw [e]
    simp only [drawN, ih, List.cons_append]

/-! ## Backward -/

/-- The mask array `dropout` leaves is the one a later read gets. -/
theorem dropout_mask_array {G : Type} (R : StdRandom G) (d : Dropout G) (x : List ℚ)
    (out : Variable) (g : G) :
    ∃ m, (dropout R d x out g).1.mask_.data = some m ∧
      (dropout R d x out g).1.mask_.array = m := by
  refine ⟨_, rfl, Variable.array_of_data rfl ?_⟩
  rw [(dropout_loop_spec R d x ⟨d.mask_.array, out.array, g⟩ x.length).2.1]
  exact Variable.length_array _

theorem forward_mask_array {G : Type} (R : StdRandom G) (w : World G) (x : List ℚ) :
    ∃ m, (forward_impl R w x).op.mask_.data = some m ∧
      (forward_impl R w x).op.mask_.array = m := by
  by_cases hs : w.op.seed_ = -1
  · simp only [forward_impl, hs, if_true]
    exact dropout_mask_array R _ x w.out _
  · simp only [forward_impl, hs, if_false]
    exact dropout_mask_array R _ x w.out _

theorem recompute_mask_array {G : Type} (R : StdRandom G) (w : World G) (x : List ℚ) :
    ∃ m, (recompute_impl R w x).op.mask_.data = some m ∧
      (recompute_impl R w x).op.mask_.array = m :=
  dropout_mask_array R _ x w.out _

/-- The gradient a propagating backward leaves, element by element. -/
theorem backward_impl_get {G : Type} (w : World G) (n : Nat) (dy : List ℚ) (accum : Bool)
    (i : Nat) (h1 : i < n) (h2 : i < w.dx.length) :
    (backward_impl w n dy true accum).dx[i]? =
      some ((if accum then w.dx.getD i 0 else 0)
        + dy.getD i 0 * w.op.mask_.array.getD i 0 * w.op.scale_) := by
  have h := (backward_loop_spec w.op dy w.op.mask_.array accum w.dx n).2 i
  simp only [h1, h2, and_self, if_true] at h
  simpa [backward_impl] using h

/-! ## The claims -/

/-- C1: `setup_impl` raises the value error exactly when the probability is
outside `[0,1)`: it succeeds for every `0 ≤ p < 1` and fails for every `p < 0`
and every `p ≥ 1`, `p = 1` included. -/
theorem setup_impl_error_iff {G : Type} (R : StdRandom G) (d : Dropout G) (rdev : Nat)
    (in_shape : List Nat) (out : Variable) :
    ((∃ r, setup_impl R d rdev in_shape out = .ok r) ↔ (0 ≤ d.p_ ∧ d.p_ < 1)) ∧
    (setup_impl R d rdev in_shape out = .error error_code.value ↔ (d.p_ < 0 ∨ 1 ≤ d.p_)) := by
  by_cases h : 0 ≤ d.p_ ∧ d.p_ < 1
  · have hn : ¬ (d.p_ < 0 ∨ 1 ≤ d.p_) := by
      rintro (h' | h')
      · exact absurd h.1 (not_le.mpr h')
      · exact absurd h.2 (not_lt.mpr h')
    have e : setup_impl R d rdev in_shape out = .ok
        ({ d with
            mask_ := Variable.make in_shape
            rgen_ := R.mt19937 (seed_value d.seed_ rdev)
            rdist_ := 1 - d.p_
            scale_ := 1 / (1 - d.p_) }, out.reshape in_shape) := by
      simp only [setup_impl, if_pos h]
    refine ⟨⟨fun _ => h, fun _ => ⟨_, e⟩⟩, ⟨fun he => ?_, fun hn1 => absurd hn1 hn⟩⟩
    rw [e] at he
    cases he
  · have hn : d.p_ < 0 ∨ 1 ≤ d.p_ := by
      by_cases h0 : 0 ≤ d.p_
      · exact Or.inr (not_lt.mp (fun h1 => h ⟨h0, h1⟩))
      · exact Or.inl (not_le.mp h0)
    have e : setup_impl R d rdev in_shape out = .error error_code.value := by
      simp only [setup_impl, if_neg h]
    refine ⟨⟨fun hr => ?_, fun h1 => absurd h1 h⟩, ⟨fun _ => hn, fun _ => e⟩⟩
    obtain ⟨r, hr⟩ := hr
    rw [e] at hr
    cases hr

/-- C2: for `p` in `[0,1)` configure succeeds, the divisor `1 - p` is not
zero, the scale is `1 / (1 - p)` afterwards, and it still is after any
sequence of `setup_recompute`, `forward`, `recompute`, `backward` and
`clear_buffer` calls. -/
theorem scale_fixed_after_configure {G : Type} (R : StdRandom G) (w : World G) (rdev : Nat)
    (in_shape : List Nat) (h0 : 0 ≤ w.op.p_) (h1 : w.op.p_ < 1) :
    1 - w.op.p_ ≠ 0 ∧
    ∃ w1, configure R w rdev in_shape = .ok w1 ∧ w1.op.scale_ = 1 / (1 - w.op.p_) ∧
      ∀ calls : List Call, (run R w1 calls).op.scale_ = 1 / (1 - w.op.p_) := by
  refine ⟨by linarith, _, configure_ok R w rdev in_shape h0 h1, rfl, ?_⟩
  intro calls
  exact (run_sameConfig R _ calls).2.2.1

theorem scale_fixed_after_configure_witness :
    (0 ≤ (newWorld (1 / 2) 7 3).op.p_ ∧ (newWorld (1 / 2) 7 3).op.p_ < 1) ∧
    (1 - (newWorld (1 / 2) 7 3).op.p_ ≠ 0 ∧
      ∃ w1, configure lcg (newWorld (1 / 2) 7 3) 0 [4] = .ok w1 ∧
        w1.op.scale_ = 1 / (1 - (newWorld (1 / 2) 7 3).op.p_) ∧
        ∀ calls : List Call,
          (run lcg w1 calls).op.scale_ = 1 / (1 - (newWorld (1 / 2) 7 3).op.p_)) :=
  ⟨⟨by norm_num [newWorld, newDropout], by norm_num [newWorld, newDropout]⟩,
    scale_fixed_after_configure lcg (newWorld (1 / 2) 7 3) 0 [4]
      (by norm_num [newWorld, newDropout]) (by norm_num [newWorld, newDropout])⟩

/-- C3: on an operator configured for the input's shape, in any state reached
afterwards, forward leaves a mask and an output of exactly `n = x.length`
elements; `mask[i]` is the `i`-th successive Bernoulli(1-p) draw from the
active generator, a value in `{0,1}`, and `y[i] = x[i] * mask[i] * scale`, so
`y[i]` is `0` where the element is dropped and `x[i] * scale` where it is
kept. -/
theorem forward_mask_and_output {G : Type} (R : StdRandom G) (w0 w1 : World G) (rdev : Nat)
    (in_shape : List Nat) (calls : List Call) (x : List ℚ)
    (hc : configure R w0 rdev in_shape = .ok w1) (hx : x.length = in_shape.prod) :
    ∃ m y : List ℚ,
      (forward_impl R (run R w1 calls) x).op.mask_.data = some m ∧
      (forward_impl R (run R w1 calls) x).out.data = some y ∧
      m.length = x.length ∧ y.length = x.length ∧
      ∀ (i : Nat) (hi : i < x.length), ∃ mi yi : ℚ,
        m[i]? = some mi ∧ y[i]? = some yi ∧
        mi = boolToT (drawAt R (1 - w0.op.p_) i (activeGen (run R w1 calls))) ∧
        (mi = 0 ∨ mi = 1) ∧
        yi = x[i] * mi * (run R w1 calls).op.scale_ ∧
        (mi = 0 → yi = 0) ∧ (mi = 1 → yi = x[i] * (run R w1 calls).op.scale_) := by
  obtain ⟨h0, h1⟩ := configure_valid R w0 w1 rdev in_shape hc
  rw [configure_ok R w0 rdev in_shape h0 h1] at hc
  injection hc with hc
  simp only [configured] at hc
  obtain ⟨_, _, _, hrd, hms, hos⟩ := run_sameConfig R w1 calls
  have hm : (run R w1 calls).op.mask_.size = x.length := by
    rw [Variable.size, hms, ← hc, hx]; rfl
  have ho : (run R w1 calls).out.size = x.length := by
    rw [Variable.size, hos, ← hc, hx]; exact congrArg List.prod (Variable.shape_reshape _ _)
  have hq : (run R w1 calls).op.rdist_ = 1 - w0.op.p_ := by rw [hrd, ← hc]
  obtain ⟨e1, e2⟩ := forward_impl_full R (run R w1 calls) x hm ho
  refine ⟨_, _, e1, e2, by simp [maskOf], by simp [outputOf], ?_⟩
  intro i hi
  refine ⟨_, _, getElem?_maskOf R _ _ _ i hi, getElem?_outputOf R _ _ _ x i hi, ?_, ?_, rfl, ?_, ?_⟩
  · rw [hq]
  · cases drawAt R (run R w1 calls).op.rdist_ i (activeGen (run R w1 calls)) <;>
      simp [boolToT]
  · intro h; rw [h]; ring
  · intro h; rw [h]; ring

theorem forward_mask_and_output_witness :
    (configure lcg (newWorld (1 / 2) (-1) 3) 0 [2, 2]
        = .ok (configured lcg (newWorld (1 / 2) (-1) 3) 0 [2, 2]) ∧
      [(1 : ℚ), 2, 3, 4].length = [2, 2].prod) ∧
    ∃ m y : List ℚ,
      (forward_impl lcg (run lcg (configured lcg (newWorld (1 / 2) (-1) 3) 0 [2, 2])
        [Call.setup_recompute]) [1, 2, 3, 4]).op.mask_.data = some m ∧
      (forward_impl lcg (run lcg (configured lcg (newWorld (1 / 2) (-1) 3) 0 [2, 2])
        [Call.setup_recompute]) [1, 2, 3, 4]).out.data = some y ∧
      m.length = [(1 : ℚ), 2, 3, 4].length ∧ y.length = [(1 : ℚ), 2, 3, 4].length ∧
      ∀ (i : Nat) (hi : i < [(1 : ℚ), 2, 3, 4].length), ∃ mi yi : ℚ,
        m[i]? = some mi ∧ y[i]? = some yi ∧
        mi = boolToT (drawAt lcg (1 - (newWorld (1 / 2) (-1) 3).op.p_) i
          (activeGen (run lcg (configured lcg (newWorld (1 / 2) (-1) 3) 0 [2, 2])
            [Call.setup_recompute]))) ∧
        (mi = 0 ∨ mi = 1) ∧
        yi = [(1 : ℚ), 2, 3, 4][i] * mi *
          (run lcg (configured lcg (newWorld (1 / 2) (-1) 3) 0 [2, 2])
            [Call.setup_recompute]).op.scale_ ∧
        (mi = 0 → yi = 0) ∧
        (mi = 1 → yi = [(1 : ℚ), 2, 3, 4][i] *
          (run lcg (configured lcg (newWorld (1 / 2) (-1) 3) 0 [2, 2])
            [Call.setup_recompute]).op.scale_) :=
  ⟨⟨configure_ok lcg (newWorld (1 / 2) (-1) 3) 0 [2, 2]
      (by norm_num [newWorld, newDropout]) (by norm_num [newWorld, newDropout]), rfl⟩,
    forward_mask_and_output lcg (newWorld (1 / 2) (-1) 3) _ 0 [2, 2]
      [Call.setup_recompute] [1, 2, 3, 4]
      (configure_ok lcg (newWorld (1 / 2) (-1) 3) 0 [2, 2]
        (by norm_num [newWorld, newDropout]) (by norm_num [newWorld, newDropout])) rfl⟩

/-- C4: two operators configured with the same probability in `[0,1)` and the
same explicit seed, for the same input shape, write the same mask and the
same output on their first forward of the same input, whatever the shared
generators, the `random_device` values and the old buffer contents are. -/
theorem forward_deterministic {G : Type} (R : StdRandom G) (wa wb : World G)
    (rdeva rdevb : Nat) (in_shape : List Nat) (x : List ℚ)
    (hp : wb.op.p_ = wa.op.p_) (hseed : wb.op.seed_ = wa.op.seed_)
    (hs : wa.op.seed_ ≠ -1) (h0 : 0 ≤ wa.op.p_) (h1 : wa.op.p_ < 1)
    (hx : x.length = in_shape.prod) :
    ∃ wa1 wb1, configure R wa rdeva in_shape = .ok wa1 ∧
      configure R wb rdevb in_shape = .ok wb1 ∧
      (forward_impl R wa1 x).op.mask_.data = (forward_impl R wb1 x).op.mask_.data ∧
      (forward_impl R wa1 x).out.data = (forward_impl R wb1 x).out.data := by
  refine ⟨_, _, configure_ok R wa rdeva in_shape h0 h1,
    configure_ok R wb rdevb in_shape (hp ▸ h0) (hp ▸ h1), ?_⟩
  have hma : (configured R wa rdeva in_shape).op.mask_.size = x.length := by
    rw [hx]; rfl
  have hmb : (configured R wb rdevb in_shape).op.mask_.size = x.length := by
    rw [hx]; rfl
  have hoa : (configured R wa rdeva in_shape).out.size = x.length := by
    rw [hx]; exact congrArg List.prod (Variable.shape_reshape _ _)
  have hob : (configured R wb rdevb in_shape).out.size = x.length := by
    rw [hx]; exact congrArg List.prod (Variable.shape_reshape _ _)
  obtain ⟨a1, a2⟩ := forward_impl_full R _ x hma hoa
  obtain ⟨b1, b2⟩ := forward_impl_full R _ x hmb hob
  have hg : activeGen (configured R wb rdevb in_shape)
      = activeGen (configured R wa rdeva in_shape) := by
    have hsb : wb.op.seed_ ≠ -1 := hseed ▸ hs
    simp only [activeGen, configured, hs, hsb, if_false]
    rw [hseed, seed_value_of_seeded _ rdevb rdeva hs]
  have hq : (configured R wb rdevb in_shape).op.rdist_
      = (configured R wa rdeva in_shape).op.rdist_ := by
    simp only [configured, hp]
  have hsc : (configured R wb rdevb in_shape).op.scale_
      = (configured R wa rdeva in_shape).op.scale_ := by
    simp only [configured, hp]
  rw [a1, a2, b1, b2, hg, hq, hsc]
  exact ⟨rfl, rfl⟩

theorem forward_deterministic_witness :
    ((newWorld (1 / 2) 7 99).op.p_ = (newWorld (1 / 2) 7 3).op.p_ ∧
      (newWorld (1 / 2) 7 99).op.seed_ = (newWorld (1 / 2) 7 3).op.seed_ ∧
      (newWorld (1 / 2) 7 3).op.seed_ ≠ -1 ∧
      0 ≤ (newWorld (1 / 2) 7 3).op.p_ ∧ (newWorld (1 / 2) 7 3).op.p_ < 1 ∧
      [(1 : ℚ), 1, 1, 1].length = [4].prod) ∧
    ∃ wa1 wb1, configure lcg (newWorld (1 / 2) 7 3) 11 [4] = .ok wa1 ∧
      configure lcg (newWorld (1 / 2) 7 99) 12 [4] = .ok wb1 ∧
      (forward_impl lcg wa1 [1, 1, 1, 1]).op.mask_.data
        = (forward_impl lcg wb1 [1, 1, 1, 1]).op.mask_.data ∧
      (forward_impl lcg wa1 [1, 1, 1, 1]).out.data
        = (forward_impl lcg wb1 [1, 1, 1, 1]).out.data :=
  ⟨⟨rfl, rfl, by decide, by norm_num [newWorld, newDropout],
      by norm_num [newWorld, newDropout], rfl⟩,
    forward_deterministic lcg (newWorld (1 / 2) 7 3) (newWorld (1 / 2) 7 99) 11 12 [4]
      [1, 1, 1, 1] rfl rfl (by decide) (by norm_num [newWorld, newDropout])
      (by norm_num [newWorld, newDropout]) rfl⟩

/-- C5: once `setup_recompute` has been called, whatever calls came before
and after it and whichever generator the operator draws from, a recompute made
right after a forward with the same input leaves exactly the mask and the
output that this forward left. On buffers of the input's element count this
also holds when calls other than forward (recompute, backward, clear_buffer,
setup_recompute) come between that forward and the recompute. -/
theorem recompute_reproduces_forward {G : Type} (R : StdRandom G) (w : World G)
    (before after : List Call) (x : List ℚ) :
    ((run R w (before ++ [Call.setup_recompute] ++ after
          ++ [Call.forward x, Call.recompute x])).op.mask_
        = (run R w (before ++ [Call.setup_recompute] ++ after ++ [Call.forward x])).op.mask_ ∧
      (run R w (before ++ [Call.setup_recompute] ++ after
          ++ [Call.forward x, Call.recompute x])).out
        = (run R w (before ++ [Call.setup_recompute] ++ after ++ [Call.forward x])).out) ∧
    ∀ between : List Call, (∀ c ∈ between, c.isForward = false) →
      w.op.mask_.size = x.length → w.out.size = x.length →
      (run R w (before ++ [Call.setup_recompute] ++ after ++ [Call.forward x]
          ++ between ++ [Call.recompute x])).op.mask_
        = (run R w (before ++ [Call.setup_recompute] ++ after ++ [Call.forward x])).op.mask_ ∧
      (run R w (before ++ [Call.setup_recompute] ++ after ++ [Call.forward x]
          ++ between ++ [Call.recompute x])).out
        = (run R w (before ++ [Call.setup_recompute] ++ after ++ [Call.forward x])).out := by
  have hsave : (run R w (before ++ [Call.setup_recompute] ++ after)).op.save_rng_ = true := by
    rw [run_append, run_append]
    apply run_save_rng
    simp [run, step, setup_recompute_impl]
  refine ⟨?_, ?_⟩
  · rw [run_append R w _ [Call.forward x, Call.recompute x], run_append R w _ [Call.forward x]]
    exact recompute_after_forward R _ x hsave
  · intro between hb hm ho
    obtain ⟨_, _, _, _, c5, c6⟩ :=
      run_sameConfig R w (before ++ [Call.setup_recompute] ++ after)
    rw [run_append R w _ [Call.recompute x], run_append R w _ between,
      run_append R w _ [Call.forward x]]
    exact recompute_after_forward_calls R _ x between hsave
      (by rw [Variable.size, c5]; exact hm) (by rw [Variable.size, c6]; exact ho) hb

theorem recompute_reproduces_forward_witness :
    (∀ c ∈ [Call.backward 4 [1, 1, 1, 1] true false, Call.clear_buffer],
        c.isForward = false) ∧
    (configured lcg (newWorld (1 / 2) (-1) 3) 0 [4]).op.mask_.size
      = [(1 : ℚ), 2, 3, 4].length ∧
    (configured lcg (newWorld (1 / 2) (-1) 3) 0 [4]).out.size = [(1 : ℚ), 2, 3, 4].length ∧
    (run lcg (configured lcg (newWorld (1 / 2) (-1) 3) 0 [4])
        ([Call.forward [5, 6, 7, 8]] ++ [Call.setup_recompute] ++ []
          ++ [Call.forward [1, 2, 3, 4]]
          ++ [Call.backward 4 [1, 1, 1, 1] true false, Call.clear_buffer]
          ++ [Call.recompute [1, 2, 3, 4]])).op.mask_
      = (run lcg (configured lcg (newWorld (1 / 2) (-1) 3) 0 [4])
        ([Call.forward [5, 6, 7, 8]] ++ [Call.setup_recompute] ++ []
          ++ [Call.forward [1, 2, 3, 4]])).op.mask_ ∧
    (run lcg (configured lcg (newWorld (1 / 2) (-1) 3) 0 [4])
        ([Call.forward [5, 6, 7, 8]] ++ [Call.setup_recompute] ++ []
          ++ [Call.forward [1, 2, 3, 4]]
          ++ [Call.backward 4 [1, 1, 1, 1] true false, Call.clear_buffer]
          ++ [Call.recompute [1, 2, 3, 4]])).out
      = (run lcg (configured lcg (newWorld (1 / 2) (-1) 3) 0 [4])
        ([Call.forward [5, 6, 7, 8]] ++ [Call.setup_recompute] ++ []
          ++ [Call.forward [1, 2, 3, 4]])).out :=
  have hb : ∀ c ∈ [Call.backward 4 [1, 1, 1, 1] true false, Call.clear_buffer],
      c.isForward = false := by
    intro c hc
    simp only [List.mem_cons, List.mem_singleton, List.not_mem_nil, or_false] at hc
    rcases hc with h | h <;> rw [h] <;> rfl
  ⟨hb, rfl, rfl,
    (recompute_reproduces_forward lcg (configured lcg (newWorld (1 / 2) (-1) 3) 0 [4])
      [Call.forward [5, 6, 7, 8]] [] [1, 2, 3, 4]).2 _ hb rfl rfl⟩

/-- C6: recompute changes the data of the mask and of the output and nothing
else: the shared generator, the private generator and the snapshot are as
before (and so is every other field), hence any number of further recompute
calls leave the same mask and output. -/
theorem recompute_frame {G : Type} (R : StdRandom G) (w : World G) (x : List ℚ) :
    (recompute_impl R w x).shared = w.shared ∧
    (recompute_impl R w x).op.rgen_ = w.op.rgen_ ∧
    (recompute_impl R w x).op.rgen_for_recompute_ = w.op.rgen_for_recompute_ ∧
    recompute_impl R w x =
      { w with
        op := { w.op with
                mask_ := { w.op.mask_ with data := (recompute_impl R w x).op.mask_.data } }
        out := { w.out with data := (recompute_impl R w x).out.data } } ∧
    ∀ k : Nat,
      ((fun v => recompute_impl R v x)^[k + 1] w).op.mask_ = (recompute_impl R w x).op.mask_ ∧
      ((fun v => recompute_impl R v x)^[k + 1] w).out = (recompute_impl R w x).out := by
  refine ⟨rfl, rfl, rfl, rfl, ?_⟩
  intro k
  have h : (fun v => recompute_impl R v x)^[k + 1] w = recompute_impl R w x := by
    induction k with
    | zero => rfl
    | succ k ih => rw [Function.iterate_succ_apply', ih, recompute_idem]
  rw [h]
  exact ⟨rfl, rfl⟩

/-- C7: with an explicit seed, the values drawn from the shared generator
around a configure, `setup_recompute`, forward and recompute of the operator
are the values drawn without it: `N` draws, the four calls, then `N` more
draws give the same `N + N` values as `2 * N` draws in a row. -/
theorem shared_draws_undisturbed {G : Type} (R : StdRandom G) (w : World G) (rdev : Nat)
    (in_shape : List Nat) (x : List ℚ) (N : Nat)
    (hs : w.op.seed_ ≠ -1) (h0 : 0 ≤ w.op.p_) (h1 : w.op.p_ < 1) :
    ∃ w1, configure R { w with shared := (drawN R N w.shared).2 } rdev in_shape = .ok w1 ∧
      (drawN R N w.shared).1 ++
        (drawN R N
          (run R w1 [Call.setup_recompute, Call.forward x, Call.recompute x]).shared).1
        = (drawN R (2 * N) w.shared).1 := by
  refine ⟨_, configure_ok R _ rdev in_shape h0 h1, ?_⟩
  have e : (run R (configured R { w with shared := (drawN R N w.shared).2 } rdev in_shape)
      [Call.setup_recompute, Call.forward x, Call.recompute x]).shared
      = (drawN R N w.shared).2 := by
    simp [run, step, forward_impl, recompute_impl, setup_recompute_impl, configured, hs]
  rw [e, two_mul, drawN_add]

theorem shared_draws_undisturbed_witness :
    ((newWorld (1 / 2) 7 3).op.seed_ ≠ -1 ∧ 0 ≤ (newWorld (1 / 2) 7 3).op.p_ ∧
      (newWorld (1 / 2) 7 3).op.p_ < 1) ∧
    ∃ w1, configure lcg { newWorld (1 / 2) 7 3 with
        shared := (drawN lcg 5 (newWorld (1 / 2) 7 3).shared).2 } 0 [4] = .ok w1 ∧
      (drawN lcg 5 (newWorld (1 / 2) 7 3).shared).1 ++
        (drawN lcg 5
          (run lcg w1
            [Call.setup_recompute, Call.forward [1, 1, 1, 1], Call.recompute [1, 1, 1, 1]]).shared).1
        = (drawN lcg (2 * 5) (newWorld (1 / 2) 7 3).shared).1 :=
  ⟨⟨by decide, by norm_num [newWorld, newDropout], by norm_num [newWorld, newDropout]⟩,
    shared_draws_undisturbed lcg (newWorld (1 / 2) 7 3) 0 [4] [1, 1, 1, 1] 5 (by decide)
      (by norm_num [newWorld, newDropout]) (by norm_num [newWorld, newDropout])⟩

/-- C8: a backward with `propagate = true` that follows a forward or a
recompute uses the mask that call wrote: with `accumulate = false` it writes
`dx[i] = dy[i] * mask[i] * scale` whatever `dx` held before, and with
`accumulate = true` it writes `dx[i] = dx_before[i] + dy[i] * mask[i] * scale`. -/
theorem backward_gradient {G : Type} (R : StdRandom G) (w wf : World G) (x : List ℚ)
    (hwf : wf = forward_impl R w x ∨ wf = recompute_impl R w x) :
    ∃ m, wf.op.mask_.data = some m ∧
      ∀ (n : Nat) (dy dx : List ℚ) (i : Nat) (_ : i < n) (_ : i < dx.length)
        (_ : i < dy.length) (_ : i < m.length),
        (backward_impl { wf with dx := dx } n dy true false).dx[i]?
          = some (dy[i] * m[i] * wf.op.scale_) ∧
        (backward_impl { wf with dx := dx } n dy true true).dx[i]?
          = some (dx[i] + dy[i] * m[i] * wf.op.scale_) := by
  have hm : ∃ m, wf.op.mask_.data = some m ∧ wf.op.mask_.array = m := by
    rcases hwf with h | h
    · rw [h]; exact forward_mask_array R w x
    · rw [h]; exact recompute_mask_array R w x
  obtain ⟨m, hd, ha⟩ := hm
  refine ⟨m, hd, ?_⟩
  intro n dy dx i h1 h2 h3 h4
  have e1 := backward_impl_get { wf with dx := dx } n dy false i h1 h2
  have e2 := backward_impl_get { wf with dx := dx } n dy true i h1 h2
  simp only [ha, List.getD_eq_getElem _ _ h2, List.getD_eq_getElem _ _ h3,
    List.getD_eq_getElem _ _ h4] at e1 e2
  refine ⟨?_, ?_⟩
  · rw [e1]; simp
  · rw [e2]; simp

theorem backward_gradient_witness :
    (forward_impl lcg (configured lcg (newWorld (1 / 2) (-1) 3) 0 [4]) [1, 2, 3, 4]
        = forward_impl lcg (configured lcg (newWorld (1 / 2) (-1) 3) 0 [4]) [1, 2, 3, 4] ∨
      forward_impl lcg (configured lcg (newWorld (1 / 2) (-1) 3) 0 [4]) [1, 2, 3, 4]
        = recompute_impl lcg (configured lcg (newWorld (1 / 2) (-1) 3) 0 [4]) [1, 2, 3, 4]) ∧
    ∃ m, (forward_impl lcg (configured lcg (newWorld (1 / 2) (-1) 3) 0 [4])
        [1, 2, 3, 4]).op.mask_.data = some m ∧
      ∀ (n : Nat) (dy dx : List ℚ) (i : Nat) (_ : i < n) (_ : i < dx.length)
        (_ : i < dy.length) (_ : i < m.length),
        (backward_impl { forward_impl lcg (configured lcg (newWorld (1 / 2) (-1) 3) 0 [4])
            [1, 2, 3, 4] with dx := dx } n dy true false).dx[i]?
          = some (dy[i] * m[i] * (forward_impl lcg
              (configured lcg (newWorld (1 / 2) (-1) 3) 0 [4]) [1, 2, 3, 4]).op.scale_) ∧
        (backward_impl { forward_impl lcg (configured lcg (newWorld (1 / 2) (-1) 3) 0 [4])
            [1, 2, 3, 4] with dx := dx } n dy true true).dx[i]?
          = some (dx[i] + dy[i] * m[i] * (forward_impl lcg
              (configured lcg (newWorld (1 / 2) (-1) 3) 0 [4]) [1, 2, 3, 4]).op.scale_) :=
  ⟨Or.inl rfl,
    backward_gradient lcg (configured lcg (newWorld (1 / 2) (-1) 3) 0 [4]) _ [1, 2, 3, 4]
      (Or.inl rfl)⟩

/-- C9: a backward whose propagate flag is false leaves the gradient array of
the input as it was, for either accumulate flag and every `dy` and mask. -/
theorem backward_no_propagate {G : Type} (w : World G) (n : Nat) (dy : List ℚ)
    (accum : Bool) : (backward_impl w n dy false accum).dx = w.dx := by
  simp [backward_impl]

/-- C10, as the code has it: after a backward with `propagate = true` the
mask array is released, for either accumulate flag; a backward with
`propagate = false` returns at once and leaves the mask variable as it is. -/
theorem backward_mask_release {G : Type} (w : World G) (n : Nat) (dy : List ℚ)
    (accum : Bool) :
    (backward_impl w n dy true accum).op.mask_.data = none ∧
    (backward_impl w n dy false accum).op.mask_ = w.op.mask_ := by
  simp [backward_impl, clear_buffer, Variable.clear]

/-- C10 fails as stated: configure for four elements, forward on `[1,2,3,4]`,
then backward with `propagate = false`: the mask array is still there. -/
theorem backward_mask_not_released :
    (backward_impl
      (forward_impl lcg (configured lcg (newWorld (1 / 2) (-1) 3) 0 [4]) [1, 2, 3, 4])
      4 [1, 1, 1, 1] false false).op.mask_.data = some [1, 1, 0, 1] ∧
    (backward_impl
      (forward_impl lcg (configured lcg (newWorld (1 / 2) (-1) 3) 0 [4]) [1, 2, 3, 4])
      4 [1, 1, 1, 1] false false).op.mask_.data ≠ none := by
  constructor <;> decide!

/-! ## Which generator forward advances -/

/-- With `seed_ == -1` forward advances the shared generator by one Bernoulli
draw per element and leaves `rgen_` alone. -/
theorem forward_gens_shared {G : Type} (R : StdRandom G) (w : World G) (x : List ℚ)
    (hs : w.op.seed_ = -1) :
    (forward_impl R w x).shared = genAfter R w.op.rdist_ x.length w.shared ∧
    (forward_impl R w x).op.rgen_ = w.op.rgen_ := by
  by_cases hr : w.op.save_rng_ = true
  · simp only [forward_impl, hs, hr, if_true]
    exact ⟨dropout_gen R _ x w.out _, rfl⟩
  · simp only [forward_impl, hs, hr, if_true, if_false, Bool.false_eq_true]
    exact ⟨dropout_gen R _ x w.out _, rfl⟩

/-- With an explicit seed forward advances `rgen_` by one Bernoulli draw per
element and leaves the shared generator alone. -/
theorem forward_gens_seeded {G : Type} (R : StdRandom G) (w : World G) (x : List ℚ)
    (hs : w.op.seed_ ≠ -1) :
    (forward_impl R w x).shared = w.shared ∧
    (forward_impl R w x).op.rgen_ = genAfter R w.op.rdist_ x.length w.op.rgen_ := by
  by_cases hr : w.op.save_rng_ = true
  · simp only [forward_impl, hs, hr, if_true, if_false]
    exact ⟨trivial, dropout_gen R _ x w.out _⟩
  · simp only [forward_impl, hs, hr, if_false, Bool.false_eq_true]
    exact ⟨trivial, dropout_gen R _ x w.out _⟩

/-- In a state reached from a successful configure the sizes, the Bernoulli
parameter and the seed are those configure fixed. -/
theorem run_configured {G : Type} (R : StdRandom G) (w0 w1 : World G) (rdev : Nat)
    (in_shape : List Nat) (calls : List Call)
    (hc : configure R w0 rdev in_shape = .ok w1) :
    (run R w1 calls).op.mask_.size = in_shape.prod ∧
    (run R w1 calls).out.size = in_shape.prod ∧
    (run R w1 calls).op.rdist_ = 1 - w0.op.p_ ∧
    (run R w1 calls).op.scale_ = 1 / (1 - w0.op.p_) ∧
    (run R w1 calls).op.seed_ = w0.op.seed_ ∧
    w1 = configured R w0 rdev in_shape := by
  obtain ⟨h0, h1⟩ := configure_valid R w0 w1 rdev in_shape hc
  rw [configure_ok R w0 rdev in_shape h0 h1] at hc
  injection hc with hc
  obtain ⟨_, hse, hsc, hrd, hms, hos⟩ := run_sameConfig R w1 calls
  refine ⟨?_, ?_, ?_, ?_, ?_, hc.symm⟩
  · rw [Variable.size, hms, ← hc]; rfl
  · rw [Variable.size, hos, ← hc]; exact congrArg List.prod (Variable.shape_reshape _ _)
  · rw [hrd, ← hc]; rfl
  · rw [hsc, ← hc]; rfl
  · rw [hse, ← hc]; rfl

/-- C11: in any state reached after a successful configure, a forward on `n`
elements of an operator without seed (`seed_ == -1`) takes its `n` mask values
from the shared generator, leaves it in the state reached by `n` successive
Bernoulli(1-p) draws and leaves the private generator unchanged; with an
explicit seed the private generator is the one configure seeded with that
seed, forward takes the mask values from it and advances it, and the shared
generator is unchanged. -/
theorem generator_source_selection {G : Type} (R : StdRandom G) (w0 w1 : World G)
    (rdev : Nat) (in_shape : List Nat) (calls : List Call) (x : List ℚ)
    (hc : configure R w0 rdev in_shape = .ok w1) (hx : x.length = in_shape.prod) :
    (w0.op.seed_ = -1 →
      (forward_impl R (run R w1 calls) x).shared
        = genAfter R (1 - w0.op.p_) x.length (run R w1 calls).shared ∧
      (forward_impl R (run R w1 calls) x).op.rgen_ = (run R w1 calls).op.rgen_ ∧
      (forward_impl R (run R w1 calls) x).op.mask_.data
        = some (maskOf R (1 - w0.op.p_) (run R w1 calls).shared x.length)) ∧
    (w0.op.seed_ ≠ -1 →
      w1.op.rgen_ = R.mt19937 (w0.op.seed_ % 2 ^ 32).toNat ∧
      (forward_impl R (run R w1 calls) x).shared = (run R w1 calls).shared ∧
      (forward_impl R (run R w1 calls) x).op.rgen_
        = genAfter R (1 - w0.op.p_) x.length (run R w1 calls).op.rgen_ ∧
      (forward_impl R (run R w1 calls) x).op.mask_.data
        = some (maskOf R (1 - w0.op.p_) (run R w1 calls).op.rgen_ x.length)) := by
  obtain ⟨hm, ho, hq, _, hse, hw1⟩ := run_configured R w0 w1 rdev in_shape calls hc
  obtain ⟨e1, _⟩ := forward_impl_full R (run R w1 calls) x (hm.trans hx.symm) (ho.trans hx.symm)
  rw [hq] at e1
  constructor
  · intro hs
    have hs1 : (run R w1 calls).op.seed_ = -1 := hse.trans hs
    obtain ⟨a1, a2⟩ := forward_gens_shared R (run R w1 calls) x hs1
    rw [hq] at a1
    refine ⟨a1, a2, ?_⟩
    rw [e1]
    simp only [activeGen, hs1, if_true]
  · intro hs
    have hs1 : (run R w1 calls).op.seed_ ≠ -1 := fun h => hs (hse.symm.trans h)
    obtain ⟨a1, a2⟩ := forward_gens_seeded R (run R w1 calls) x hs1
    rw [hq] at a2
    refine ⟨?_, a1, a2, ?_⟩
    · rw [hw1]
      simp only [configured, seed_value, hs, if_false]
    · rw [e1]
      simp only [activeGen, hs1, if_false]

theorem generator_source_selection_witness :
    (configure lcg (newWorld (1 / 2) 7 3) 0 [4] = .ok (configured lcg (newWorld (1 / 2) 7 3) 0 [4])
      ∧ [(1 : ℚ), 2, 3, 4].length = [4].prod) ∧
    (configured lcg (newWorld (1 / 2) 7 3) 0 [4]).op.rgen_
      = lcg.mt19937 ((newWorld (1 / 2) 7 3).op.seed_ % 2 ^ 32).toNat ∧
    (forward_impl lcg (run lcg (configured lcg (newWorld (1 / 2) 7 3) 0 [4])
        [Call.forward [1, 2, 3, 4]]) [1, 2, 3, 4]).shared
      = (run lcg (configured lcg (newWorld (1 / 2) 7 3) 0 [4]) [Call.forward [1, 2, 3, 4]]).shared ∧
    (forward_impl lcg (run lcg (configured lcg (newWorld (1 / 2) 7 3) 0 [4])
        [Call.forward [1, 2, 3, 4]]) [1, 2, 3, 4]).op.rgen_
      = genAfter lcg (1 - (newWorld (1 / 2) 7 3).op.p_) [(1 : ℚ), 2, 3, 4].length
        (run lcg (configured lcg (newWorld (1 / 2) 7 3) 0 [4])
          [Call.forward [1, 2, 3, 4]]).op.rgen_ ∧
    (forward_impl lcg (run lcg (configured lcg (newWorld (1 / 2) 7 3) 0 [4])
        [Call.forward [1, 2, 3, 4]]) [1, 2, 3, 4]).op.mask_.data
      = some (maskOf lcg (1 - (newWorld (1 / 2) 7 3).op.p_)
        (run lcg (configured lcg (newWorld (1 / 2) 7 3) 0 [4])
          [Call.forward [1, 2, 3, 4]]).op.rgen_ [(1 : ℚ), 2, 3, 4].length) :=
  ⟨⟨configure_ok lcg (newWorld (1 / 2) 7 3) 0 [4]
      (by norm_num [newWorld, newDropout]) (by norm_num [newWorld, newDropout]), rfl⟩,
    (generator_source_selection lcg (newWorld (1 / 2) 7 3) _ 0 [4]
      [Call.forward [1, 2, 3, 4]] [1, 2, 3, 4]
      (configure_ok lcg (newWorld (1 / 2) 7 3) 0 [4]
        (by norm_num [newWorld, newDropout]) (by norm_num [newWorld, newDropout])) rfl).2
      (by decide)⟩

/-! ## Ceil -/

/-- C12, as the code has it: the backward expression of `Ceil` is `dy`, so
the gradient contribution it adds to `dx` is `dy` itself, element by element,
for every input `x`; a backward that overwrites leaves `dx = dy`. -/
theorem ceil_backward_is_dy (dy x dx : List ℚ) (h : dy.length = x.length) :
    (∀ d v y : ℚ, Ceil.gop d v y = d) ∧
    Ceil.grad dy x = dy ∧
    Ceil.backward dy x dx false = dy := by
  have hg : Ceil.grad dy x = dy := by
    simp only [TransformUnary.grad, Ceil]
    induction dy generalizing x with
    | nil => simp
    | cons d ds ih =>
      cases x with
      | nil => simp at h
      | cons v vs =>
        simp only [List.zipWith_cons_cons, List.cons.injEq, true_and]
        exact ih vs (by simpa using h)
  refine ⟨fun _ _ _ => rfl, hg, ?_⟩
  simp only [TransformUnary.backward, hg, Bool.false_eq_true, if_false]

theorem ceil_backward_is_dy_witness :
    [(1 : ℚ), 1, 1].length = [(6 / 5 : ℚ), -6 / 5, 2].length ∧
    (∀ d v y : ℚ, Ceil.gop d v y = d) ∧
    Ceil.grad [1, 1, 1] [6 / 5, -6 / 5, 2] = [1, 1, 1] ∧
    Ceil.backward [1, 1, 1] [6 / 5, -6 / 5, 2] [0, 0, 0] false = [1, 1, 1] :=
  ⟨rfl, ceil_backward_is_dy [1, 1, 1] [6 / 5, -6 / 5, 2] [0, 0, 0] rfl⟩

/-- C12 fails as stated: for `x = [1.2, -1.2, 2.0]` and `dy = [1, 1, 1]` the
gradient contribution of `Ceil` is `[1, 1, 1]`, not `[0, 0, 0]`. -/
theorem ceil_backward_not_zero :
    Ceil.grad [1, 1, 1] [6 / 5, -6 / 5, 2] = [1, 1, 1] ∧
    Ceil.grad [1, 1, 1] [6 / 5, -6 / 5, 2] ≠ [0, 0, 0] := by
  constructor <;> decide!

/-- C13: the forward of `Ceil` has one output per input and `y[i]` is the
ceiling of `x[i]`: an integer with `x[i] ≤ y[i] < x[i] + 1`, below every other
integer that is not smaller than `x[i]`, and equal to `x[i]` when `x[i]` is an
integer; `x = [1.2, -1.2, 2.0]` gives `y = [2.0, -1.0, 2.0]`. -/
theorem ceil_forward (x : List ℚ) :
    (Ceil.forward x).length = x.length ∧
    (∀ (i : Nat) (hi : i < x.length), ∃ z : ℤ,
      (Ceil.forward x)[i]? = some (z : ℚ) ∧
      x[i] ≤ (z : ℚ) ∧ (z : ℚ) < x[i] + 1 ∧
      (∀ k : ℤ, x[i] ≤ (k : ℚ) → z ≤ k) ∧
      ((∃ k : ℤ, x[i] = (k : ℚ)) → (z : ℚ) = x[i])) ∧
    Ceil.forward [6 / 5, -6 / 5, 2] = [2, -1, 2] := by
  refine ⟨by simp [TransformUnary.forward], ?_, by decide!⟩
  intro i hi
  refine ⟨Int.ceil x[i], ?_, Int.le_ceil _, Int.ceil_lt_add_one _, ?_, ?_⟩
  · simp [TransformUnary.forward, Ceil, List.getElem?_eq_getElem hi]
  · intro k hk
    exact Int.ceil_le.mpr hk
  · rintro ⟨k, hk⟩
    rw [hk, Int.ceil_intCast]

/-! ## PowScalar -/

/-- C14: the forward expression of `PowScalar` is the square-root primitive
when the exponent is exactly `0.5` and the general power for every other
exponent, whatever the element type and its `sqrt` and `pow`; over the real
numbers the square-root branch agrees with `x ^ 0.5` for every `x ≥ 0`, and
`x = [4, 9, 16]` gives `y = [2, 3, 4]`. -/
theorem pow_scalar_forward :
    (∀ (T : Type) [Mul T] [Sub T] [One T] (M : StdMath T) (a0 : ℚ) (x : T),
      (a0 = 1 / 2 → (PowScalar M a0).op x = M.sqrt x) ∧
      (a0 ≠ 1 / 2 → (PowScalar M a0).op x = M.pow x (M.cast a0))) ∧
    (∀ x : ℝ, 0 ≤ x →
      (PowScalar ({ sqrt := Real.sqrt, pow := fun b e => b ^ e, cast := fun q => (q : ℝ) } : StdMath ℝ) (1 / 2)).op x
        = x ^ (((1 / 2 : ℚ)) : ℝ)) ∧
    (PowScalar ({ sqrt := Real.sqrt, pow := fun b e => b ^ e, cast := fun q => (q : ℝ) } : StdMath ℝ) (1 / 2)).forward [4, 9, 16] = [2, 3, 4] := by
  refine ⟨?_, ?_, ?_⟩
  · intro T _ _ _ M a0 x
    exact ⟨fun h => by simp only [PowScalar, h, if_true],
      fun h => by simp only [PowScalar, h, if_false]⟩
  · intro x _
    simp only [PowScalar, if_true]
    rw [Real.sqrt_eq_rpow]
    norm_num
  · have h4 : Real.sqrt 4 = 2 := by
      rw [show (4 : ℝ) = 2 ^ 2 by norm_num]
      exact Real.sqrt_sq (by norm_num)
    have h9 : Real.sqrt 9 = 3 := by
      rw [show (9 : ℝ) = 3 ^ 2 by norm_num]
      exact Real.sqrt_sq (by norm_num)
    have h16 : Real.sqrt 16 = 4 := by
      rw [show (16 : ℝ) = 4 ^ 2 by norm_num]
      exact Real.sqrt_sq (by norm_num)
    simp [TransformUnary.forward, PowScalar, h4, h9, h16]

/-- C17: over the real numbers, for every `x > 0`, every `dy` and every
exponent `a0` (`0.5` included, where forward is the square root), the forward
expression of `PowScalar` is differentiable at `x` and its backward
expression `dy * a0 * x ^ (a0 - 1)` is `dy` times that derivative. -/
theorem pow_scalar_backward_is_derivative (a0 : ℚ) (x dy y : ℝ) (hx : 0 < x) :
    HasDerivAt (PowScalar ({ sqrt := Real.sqrt, pow := fun b e => b ^ e, cast := fun q => (q : ℝ) } : StdMath ℝ) a0).op ((a0 : ℝ) * x ^ ((a0 : ℝ) - 1)) x ∧
    (PowScalar ({ sqrt := Real.sqrt, pow := fun b e => b ^ e, cast := fun q => (q : ℝ) } : StdMath ℝ) a0).gop dy x y = dy * ((a0 : ℝ) * x ^ ((a0 : ℝ) - 1)) ∧
    (PowScalar ({ sqrt := Real.sqrt, pow := fun b e => b ^ e, cast := fun q => (q : ℝ) } : StdMath ℝ) a0).gop dy x y = dy * deriv (PowScalar ({ sqrt := Real.sqrt, pow := fun b e => b ^ e, cast := fun q => (q : ℝ) } : StdMath ℝ) a0).op x := by
  have hfun : (PowScalar ({ sqrt := Real.sqrt, pow := fun b e => b ^ e, cast := fun q => (q : ℝ) } : StdMath ℝ) a0).op = fun t : ℝ => t ^ (a0 : ℝ) := by
    funext t
    by_cases h : a0 = 1 / 2
    · simp only [PowScalar, h, if_true]
      rw [Real.sqrt_eq_rpow]
      norm_num
    · simp only [PowScalar, h, if_false]
  have hd : HasDerivAt (PowScalar ({ sqrt := Real.sqrt, pow := fun b e => b ^ e, cast := fun q => (q : ℝ) } : StdMath ℝ) a0).op ((a0 : ℝ) * x ^ ((a0 : ℝ) - 1)) x := by
    rw [hfun]
    exact Real.hasDerivAt_rpow_const (Or.inl hx.ne')
  refine ⟨hd, ?_, ?_⟩
  · simp only [PowScalar]
    ring
  · rw [hd.deriv]
    simp only [PowScalar]
    ring

theorem pow_scalar_backward_is_derivative_witness :
    (0 : ℝ) < 4 ∧
    (HasDerivAt (PowScalar ({ sqrt := Real.sqrt, pow := fun b e => b ^ e, cast := fun q => (q : ℝ) } : StdMath ℝ) (1 / 2)).op
        ((((1 / 2 : ℚ)) : ℝ) * (4 : ℝ) ^ ((((1 / 2 : ℚ)) : ℝ) - 1)) 4 ∧
      (PowScalar ({ sqrt := Real.sqrt, pow := fun b e => b ^ e, cast := fun q => (q : ℝ) } : StdMath ℝ) (1 / 2)).gop 1 4 2
        = 1 * ((((1 / 2 : ℚ)) : ℝ) * (4 : ℝ) ^ ((((1 / 2 : ℚ)) : ℝ) - 1)) ∧
      (PowScalar ({ sqrt := Real.sqrt, pow := fun b e => b ^ e, cast := fun q => (q : ℝ) } : StdMath ℝ) (1 / 2)).gop 1 4 2 = 1 * deriv (PowScalar ({ sqrt := Real.sqrt, pow := fun b e => b ^ e, cast := fun q => (q : ℝ) } : StdMath ℝ) (1 / 2)).op 4) :=
  ⟨by norm_num, pow_scalar_backward_is_derivative (1 / 2) 4 1 2 (by norm_num)⟩

/-! ## Configure twice; recompute before backward -/

theorem Variable.reshape_reshape (v : Variable) (shape : List Nat) :
    (v.reshape shape).reshape shape = v.reshape shape := by
  have h : shape.prod = (v.reshape shape).size := by
    rw [Variable.size, Variable.shape_reshape]
  rw [Variable.reshape, if_pos h]
  exact Variable.eq_of_shape_data (Variable.shape_reshape _ _).symm rfl

/-- With an explicit seed a second configure for the same shape rebuilds the
same world. -/
theorem configured_configured {G : Type} (R : StdRandom G) (w : World G) (rdev1 rdev2 : Nat)
    (in_shape : List Nat) (hs : w.op.seed_ ≠ -1) :
    configured R (configured R w rdev1 in_shape) rdev2 in_shape
      = configured R w rdev1 in_shape := by
  simp only [configured]
  rw [Variable.reshape_reshape, seed_value_of_seeded _ rdev2 rdev1 hs]

/-- The gradient backward writes depends on the world only through `dx`, the
mask variable and the scale. -/
theorem backward_dx_congr {G : Type} (w1 w2 : World G) (n : Nat) (dy : List ℚ)
    (pd accum : Bool) (h1 : w1.dx = w2.dx) (h2 : w1.op.mask_ = w2.op.mask_)
    (h3 : w1.op.scale_ = w2.op.scale_) :
    (backward_impl w1 n dy pd accum).dx = (backward_impl w2 n dy pd accum).dx := by
  have hb : backward_body w1.op dy w1.op.mask_.array accum
      = backward_body w2.op dy w2.op.mask_.array accum := by
    funext s dx
    simp only [backward_body, h2, h3]
  cases pd
  · simpa [backward_impl] using h1
  · simp only [backward_impl, Bool.not_true, Bool.false_eq_true, if_false, hb, h1]

/-- C15: for an operator with an explicit seed and `p` in `[0,1)`, a second
configure for the same input shape succeeds and leaves the state the first
one left: same scale, Bernoulli parameter, private generator and output
shape, and an unallocated mask of the input's shape; so a forward after the
second configure gives the mask and output of a forward after the first. -/
theorem configure_idempotent {G : Type} (R : StdRandom G) (w : World G) (rdev1 rdev2 : Nat)
    (in_shape : List Nat) (hs : w.op.seed_ ≠ -1) (h0 : 0 ≤ w.op.p_) (h1 : w.op.p_ < 1) :
    ∃ w1 w2, configure R w rdev1 in_shape = .ok w1 ∧
      configure R w1 rdev2 in_shape = .ok w2 ∧
      w2 = w1 ∧
      w2.op.scale_ = w1.op.scale_ ∧ w2.op.rdist_ = w1.op.rdist_ ∧
      w2.op.rgen_ = w1.op.rgen_ ∧ w2.out.shape = w1.out.shape ∧
      w2.out.shape = in_shape ∧ w2.op.mask_ = Variable.make in_shape ∧
      ∀ x : List ℚ,
        (forward_impl R w2 x).op.mask_ = (forward_impl R w1 x).op.mask_ ∧
        (forward_impl R w2 x).out = (forward_impl R w1 x).out := by
  have e : configure R (configured R w rdev1 in_shape) rdev2 in_shape
      = .ok (configured R w rdev1 in_shape) := by
    rw [configure_ok R (configured R w rdev1 in_shape) rdev2 in_shape h0 h1,
      configured_configured R w rdev1 rdev2 in_shape hs]
  exact ⟨_, _, configure_ok R w rdev1 in_shape h0 h1, e, rfl, rfl, rfl, rfl, rfl,
    Variable.shape_reshape _ _, rfl, fun _ => ⟨rfl, rfl⟩⟩

theorem configure_idempotent_witness :
    ((newWorld (1 / 2) 7 3).op.seed_ ≠ -1 ∧ 0 ≤ (newWorld (1 / 2) 7 3).op.p_ ∧
      (newWorld (1 / 2) 7 3).op.p_ < 1) ∧
    ∃ w1 w2, configure lcg (newWorld (1 / 2) 7 3) 11 [2, 2] = .ok w1 ∧
      configure lcg w1 12 [2, 2] = .ok w2 ∧
      w2 = w1 ∧
      w2.op.scale_ = w1.op.scale_ ∧ w2.op.rdist_ = w1.op.rdist_ ∧
      w2.op.rgen_ = w1.op.rgen_ ∧ w2.out.shape = w1.out.shape ∧
      w2.out.shape = [2, 2] ∧ w2.op.mask_ = Variable.make [2, 2] ∧
      ∀ x : List ℚ,
        (forward_impl lcg w2 x).op.mask_ = (forward_impl lcg w1 x).op.mask_ ∧
        (forward_impl lcg w2 x).out = (forward_impl lcg w1 x).out :=
  ⟨⟨by decide, by norm_num [newWorld, newDropout], by norm_num [newWorld, newDropout]⟩,
    configure_idempotent lcg (newWorld (1 / 2) 7 3) 11 12 [2, 2] (by decide)
      (by norm_num [newWorld, newDropout]) (by norm_num [newWorld, newDropout])⟩

/-- C16: with checkpointing enabled (`setup_recompute` somewhere in the call
history), the gradient array left by forward, recompute, backward is the one
left by forward, backward, for every input, output gradient, previous
gradient and pair of flags. -/
theorem checkpointing_keeps_gradient {G : Type} (R : StdRandom G) (w : World G)
    (before after : List Call) (x dy : List ℚ) (n : Nat) (pd accum : Bool) :
    (run R w (before ++ [Call.setup_recompute] ++ after
        ++ [Call.forward x, Call.recompute x, Call.backward n dy pd accum])).dx
      = (run R w (before ++ [Call.setup_recompute] ++ after
        ++ [Call.forward x, Call.backward n dy pd accum])).dx := by
  have hsave : (run R w (before ++ [Call.setup_recompute] ++ after)).op.save_rng_ = true := by
    rw [run_append, run_append]
    apply run_save_rng
    simp [run, step, setup_recompute_impl]
  rw [run_append R w _ [Call.forward x, Call.recompute x, Call.backward n dy pd accum],
    run_append R w _ [Call.forward x, Call.backward n dy pd accum]]
  obtain ⟨hm, _⟩ := recompute_after_forward R _ x hsave
  exact backward_dx_congr _ _ n dy pd accum rfl hm rfl

/-! ## One draw stream across forward calls -/

theorem genAfter_add {G : Type} (R : StdRandom G) (q : ℚ) (a b : Nat) (g : G) :
    genAfter R q (a + b) g = genAfter R q b (genAfter R q a g) := by
  induction b with
  | zero => rfl
  | succ b ih =>
    show (R.bernoulli q (genAfter R q (a + b) g)).2 = _
    rw [ih]
    rfl

theorem drawAt_add {G : Type} (R : StdRandom G) (q : ℚ) (a j : Nat) (g : G) :
    drawAt R q (a + j) g = drawAt R q j (genAfter R q a g) := by
  simp only [drawAt, genAfter_add]

theorem maskOf_add {G : Type} (R : StdRandom G) (q : ℚ) (g : G) (a b : Nat) :
    maskOf R q g (a + b) = maskOf R q g a ++ maskOf R q (genAfter R q a g) b := by
  simp only [maskOf, List.range_add, List.map_append, List.map_map]
  congr 1
  apply List.map_congr_left
  intro j _
  simp only [Function.comp, drawAt_add]

/-- The first `x.length` elements of the mask `dropout` leaves are the
successive draws, when the mask holds at least that many elements. -/
theorem dropout_mask_take {G : Type} (R : StdRandom G) (d : Dropout G) (x : List ℚ)
    (out : Variable) (g : G) (hle : x.length ≤ d.mask_.size) :
    ∃ m, (dropout R d x out g).1.mask_.data = some m ∧
      m.take x.length = maskOf R d.rdist_ g x.length := by
  refine ⟨_, rfl, ?_⟩
  obtain ⟨_, _, _, hm, _⟩ := dropout_loop_spec R d x ⟨d.mask_.array, out.array, g⟩ x.length
  dsimp only at hm
  apply List.ext_getElem?
  intro i
  by_cases hi : i < x.length
  · have h2 : i < d.mask_.array.length := by rw [Variable.length_array]; omega
    rw [List.getElem?_take_of_lt hi, hm i, getElem?_maskOf R _ _ _ i hi]
    simp [hi, h2]
  · have h3 : (maskOf R d.rdist_ g x.length)[i]? = none :=
      List.getElem?_eq_none (by simp [maskOf]; omega)
    rw [List.getElem?_take_eq_none (by omega), h3]

theorem forward_mask_take {G : Type} (R : StdRandom G) (w : World G) (x : List ℚ)
    (hle : x.length ≤ w.op.mask_.size) :
    ∃ m, (forward_impl R w x).op.mask_.data = some m ∧
      m.take x.length = maskOf R w.op.rdist_ (activeGen w) x.length := by
  by_cases hs : w.op.seed_ = -1 <;> by_cases hr : w.op.save_rng_ = true
  all_goals
    simp only [forward_impl, hs, hr, if_true, if_false, activeGen, Bool.false_eq_true]
    exact dropout_mask_take R _ x w.out _ hle

/-- C18: an operator with an explicit seed, configured once, draws one
stream: the mask values written by a forward on `n1` elements followed by
those written by a forward on `n2` elements are the mask a freshly configured
operator with the same seed and probability writes in one forward on
`n1 + n2` elements. The operator's mask must hold the inputs; when both
inputs have exactly the configured size the two whole masks concatenate to
the third. -/
theorem forward_stream_continues {G : Type} (R : StdRandom G) (wa wb : World G)
    (rdeva rdevb : Nat) (shape_a shape_b : List Nat) (x1 x2 x : List ℚ)
    (hp : wb.op.p_ = wa.op.p_) (hseed : wb.op.seed_ = wa.op.seed_)
    (hs : wa.op.seed_ ≠ -1) (h0 : 0 ≤ wa.op.p_) (h1 : wa.op.p_ < 1)
    (hx1 : x1.length ≤ shape_a.prod) (hx2 : x2.length ≤ shape_a.prod)
    (hb : shape_b.prod = x1.length + x2.length) (hx : x.length = x1.length + x2.length) :
    ∃ wa1 wb1 m1 m2 m,
      configure R wa rdeva shape_a = .ok wa1 ∧ configure R wb rdevb shape_b = .ok wb1 ∧
      (forward_impl R wa1 x1).op.mask_.data = some m1 ∧
      (forward_impl R (forward_impl R wa1 x1) x2).op.mask_.data = some m2 ∧
      (forward_impl R wb1 x).op.mask_.data = some m ∧
      m1.take x1.length ++ m2.take x2.length = m ∧
      (x1.length = shape_a.prod → x2.length = shape_a.prod → m1 ++ m2 = m) := by
  have hca := configure_ok R wa rdeva shape_a h0 h1
  have hcb := configure_ok R wb rdevb shape_b (hp ▸ h0) (hp ▸ h1)
  have hsb : wb.op.seed_ ≠ -1 := hseed ▸ hs
  -- first forward of the operator
  obtain ⟨m1, d1, t1⟩ := forward_mask_take R (configured R wa rdeva shape_a) x1 hx1
  obtain ⟨_, g1⟩ := forward_gens_seeded R (configured R wa rdeva shape_a) x1 hs
  obtain ⟨_, f2, _, f4, f5, _⟩ :=
    step_sameConfig R (configured R wa rdeva shape_a) (Call.forward x1)
  simp only [step] at f2 f4 f5
  -- second forward
  have hs2 : (forward_impl R (configured R wa rdeva shape_a) x1).op.seed_ ≠ -1 := by
    rw [f2]; exact hs
  obtain ⟨m2, d2, t2⟩ := forward_mask_take R
    (forward_impl R (configured R wa rdeva shape_a) x1) x2
    (by rw [Variable.size, f5]; exact hx2)
  rw [f4] at t2
  simp only [activeGen, hs2, if_false, g1] at t2
  have hga : activeGen (configured R wa rdeva shape_a)
      = R.mt19937 (seed_value wa.op.seed_ rdeva) := by
    simp only [activeGen, configured, hs, if_false]
  rw [hga] at t1
  -- the fresh operator
  obtain ⟨e1, _⟩ := forward_impl_full R (configured R wb rdevb shape_b) x
    (by rw [hx, ← hb]; rfl)
    (by rw [hx, ← hb]; exact congrArg List.prod (Variable.shape_reshape _ _))
  have hgb : activeGen (configured R wb rdevb shape_b)
      = R.mt19937 (seed_value wa.op.seed_ rdeva) := by
    simp only [activeGen, configured, hsb, if_false]
    rw [hseed, seed_value_of_seeded _ rdevb rdeva hs]
  have hqb : (configured R wb rdevb shape_b).op.rdist_
      = (configured R wa rdeva shape_a).op.rdist_ := by
    simp only [configured, hp]
  rw [hgb, hqb, hx, maskOf_add] at e1
  have hcat : m1.take x1.length ++ m2.take x2.length
      = maskOf R (configured R wa rdeva shape_a).op.rdist_
          (R.mt19937 (seed_value wa.op.seed_ rdeva)) x1.length ++
        maskOf R (configured R wa rdeva shape_a).op.rdist_
          (genAfter R (configured R wa rdeva shape_a).op.rdist_ x1.length
            (R.mt19937 (seed_value wa.op.seed_ rdeva))) x2.length := by
    rw [t1, t2]
    rfl
  refine ⟨_, _, m1, m2, _, hca, hcb, d1, d2, e1, hcat, ?_⟩
  intro hn1 hn2
  have l1 : m1.length = shape_a.prod := by
    obtain ⟨m, hd, ha⟩ := forward_mask_array R (configured R wa rdeva shape_a) x1
    rw [d1] at hd
    injection hd with hd
    rw [hd, ← ha, Variable.length_array, Variable.size, f5]
    rfl
  have l2 : m2.length = shape_a.prod := by
    obtain ⟨m, hd, ha⟩ := forward_mask_array R
      (forward_impl R (configured R wa rdeva shape_a) x1) x2
    rw [d2] at hd
    injection hd with hd
    obtain ⟨_, _, _, _, k5, _⟩ :=
      step_sameConfig R (forward_impl R (configured R wa rdeva shape_a) x1) (Call.forward x2)
    simp only [step] at k5
    rw [hd, ← ha, Variable.length_array, Variable.size, k5, f5]
    rfl
  rw [← hcat, List.take_of_length_le (by omega), List.take_of_length_le (by omega)]

theorem forward_stream_continues_witness :
    ((newWorld (1 / 2) 7 99).op.p_ = (newWorld (1 / 2) 7 3).op.p_ ∧
      (newWorld (1 / 2) 7 99).op.seed_ = (newWorld (1 / 2) 7 3).op.seed_ ∧
      (newWorld (1 / 2) 7 3).op.seed_ ≠ -1 ∧
      0 ≤ (newWorld (1 / 2) 7 3).op.p_ ∧ (newWorld (1 / 2) 7 3).op.p_ < 1 ∧
      [(1 : ℚ), 2].length ≤ [2].prod ∧ [(3 : ℚ), 4].length ≤ [2].prod ∧
      [4].prod = [(1 : ℚ), 2].length + [(3 : ℚ), 4].length ∧
      [(1 : ℚ), 2, 3, 4].length = [(1 : ℚ), 2].length + [(3 : ℚ), 4].length) ∧
    ∃ wa1 wb1 m1 m2 m,
      configure lcg (newWorld (1 / 2) 7 3) 11 [2] = .ok wa1 ∧
      configure lcg (newWorld (1 / 2) 7 99) 12 [4] = .ok wb1 ∧
      (forward_impl lcg wa1 [1, 2]).op.mask_.data = some m1 ∧
      (forward_impl lcg (forward_impl lcg wa1 [1, 2]) [3, 4]).op.mask_.data = some m2 ∧
      (forward_impl lcg wb1 [1, 2, 3, 4]).op.mask_.data = some m ∧
      m1.take [(1 : ℚ), 2].length ++ m2.take [(3 : ℚ), 4].length = m ∧
      ([(1 : ℚ), 2].length = [2].prod → [(3 : ℚ), 4].length = [2].prod → m1 ++ m2 = m) :=
  ⟨⟨rfl, rfl, by decide, by norm_num [newWorld, newDropout],
      by norm_num [newWorld, newDropout], by decide, by decide, rfl, rfl⟩,
    forward_stream_continues lcg (newWorld (1 / 2) 7 3) (newWorld (1 / 2) 7 99) 11 12 [2] [4]
      [1, 2] [3, 4] [1, 2, 3, 4] rfl rfl (by decide) (by norm_num [newWorld, newDropout])
      (by norm_num [newWorld, newDropout]) (by decide) (by decide) rfl rfl⟩

/-! ## The snapshot flag; probability zero -/

/-- C19: a forward with the snapshot flag set and one with it unset, from the
same operator state, generators and input, leave the same mask, the same
output and the same generators; the first stores the state the active
generator had before the first draw, the second leaves the stored snapshot
alone, and apart from the flag itself nothing else differs. -/
theorem snapshot_flag_only_sets_snapshot {G : Type} (R : StdRandom G) (w : World G)
    (x : List ℚ) :
    (forward_impl R { w with op := { w.op with save_rng_ := true } } x).op.mask_
      = (forward_impl R { w with op := { w.op with save_rng_ := false } } x).op.mask_ ∧
    (forward_impl R { w with op := { w.op with save_rng_ := true } } x).out
      = (forward_impl R { w with op := { w.op with save_rng_ := false } } x).out ∧
    activeGen (forward_impl R { w with op := { w.op with save_rng_ := true } } x)
      = activeGen (forward_impl R { w with op := { w.op with save_rng_ := false } } x) ∧
    (forward_impl R { w with op := { w.op with save_rng_ := true } } x).op.rgen_for_recompute_
      = activeGen w ∧
    (forward_impl R { w with op := { w.op with save_rng_ := false } } x).op.rgen_for_recompute_
      = w.op.rgen_for_recompute_ ∧
    forward_impl R { w with op := { w.op with save_rng_ := true } } x
      = { forward_impl R { w with op := { w.op with save_rng_ := false } } x with
          op := { (forward_impl R { w with op := { w.op with save_rng_ := false } } x).op with
                  save_rng_ := true
                  rgen_for_recompute_ := activeGen w } } := by
  by_cases hs : w.op.seed_ = -1
  · simp only [forward_impl, activeGen, hs, if_true, Bool.false_eq_true, if_false]
    exact ⟨rfl, rfl, rfl, rfl, rfl, rfl⟩
  · simp only [forward_impl, activeGen, hs, if_true, Bool.false_eq_true, if_false]
    exact ⟨rfl, rfl, rfl, rfl, rfl, rfl⟩

/-- A Bernoulli distribution of parameter `1` that always keeps: the mask is
all ones. -/
theorem maskOf_one {G : Type} (R : StdRandom G) (g : G) (n : Nat)
    (hB : ∀ g1 : G, (R.bernoulli 1 g1).1 = true) :
    maskOf R 1 g n = List.replicate n 1 := by
  apply List.ext_getElem?
  intro i
  by_cases hi : i < n
  · rw [getElem?_maskOf R 1 g n i hi, List.getElem?_replicate_of_lt hi]
    simp [drawAt, hB, boolToT]
  · have h1 : (maskOf R 1 g n)[i]? = none :=
      List.getElem?_eq_none (by simp [maskOf]; omega)
    have h2 : (List.replicate n (1 : ℚ))[i]? = none :=
      List.getElem?_eq_none (by simp; omega)
    rw [h1, h2]

theorem outputOf_one {G : Type} (R : StdRandom G) (g : G) (x : List ℚ)
    (hB : ∀ g1 : G, (R.bernoulli 1 g1).1 = true) :
    outputOf R 1 1 g x = x := by
  apply List.ext_getElem?
  intro i
  by_cases hi : i < x.length
  · rw [getElem?_outputOf R 1 1 g x i hi, List.getElem?_eq_getElem hi]
    simp [drawAt, hB, boolToT]
  · have h1 : (outputOf R 1 1 g x)[i]? = none :=
      List.getElem?_eq_none (by simp [outputOf]; omega)
    rw [h1, List.getElem?_eq_none (by omega)]

/-- C20: with `p = 0` and a Bernoulli(1) draw that always keeps, configure
succeeds with `scale = 1`, forward writes a mask of ones and `y = x`, and a
backward with `propagate = true` and `accumulate = false` writes `dx = dy`. -/
theorem dropout_identity_at_zero {G : Type} (R : StdRandom G) (w : World G) (rdev : Nat)
    (in_shape : List Nat) (x dy dx : List ℚ) (hp : w.op.p_ = 0)
    (hB : ∀ g : G, (R.bernoulli 1 g).1 = true)
    (hx : x.length = in_shape.prod) (hdy : dy.length = x.length)
    (hdx : dx.length = x.length) :
    ∃ w1, configure R w rdev in_shape = .ok w1 ∧ w1.op.scale_ = 1 ∧
      (forward_impl R w1 x).op.mask_.data = some (List.replicate x.length 1) ∧
      (forward_impl R w1 x).out.data = some x ∧
      (backward_impl { forward_impl R w1 x with dx := dx } x.length dy true false).dx = dy := by
  have h0 : 0 ≤ w.op.p_ := by rw [hp]
  have h1 : w.op.p_ < 1 := by rw [hp]; norm_num
  have hq : (configured R w rdev in_shape).op.rdist_ = 1 := by
    simp [configured, hp]
  have hsc : (configured R w rdev in_shape).op.scale_ = 1 := by
    simp [configured, hp]
  obtain ⟨e1, e2⟩ := forward_impl_full R (configured R w rdev in_shape) x
    (by rw [hx]; rfl)
    (by rw [hx]; exact congrArg List.prod (Variable.shape_reshape _ _))
  rw [hq, maskOf_one R _ _ hB] at e1
  rw [hq, hsc, outputOf_one R _ _ hB] at e2
  refine ⟨_, configure_ok R w rdev in_shape h0 h1, hsc, e1, e2, ?_⟩
  obtain ⟨m, hd, ha⟩ := forward_mask_array R (configured R w rdev in_shape) x
  rw [e1] at hd
  injection hd with hd
  have hscale : (forward_impl R (configured R w rdev in_shape) x).op.scale_ = 1 := by
    exact ((step_sameConfig R (configured R w rdev in_shape) (Call.forward x)).2.2.1).trans hsc
  apply List.ext_getElem?
  intro i
  by_cases hi : i < x.length
  · rw [backward_impl_get _ x.length dy false i hi (by rw [hdx]; exact hi)]
    simp only [ha, ← hd, hscale, Bool.false_eq_true, if_false, List.getD_eq_getElem?_getD,
      List.getElem?_replicate_of_lt hi, List.getElem?_eq_getElem (hdy ▸ hi)]
    simp
  · have hsize : (backward_impl { forward_impl R (configured R w rdev in_shape) x with
        dx := dx } x.length dy true false).dx.length = dx.length := by
      simp only [backward_impl, Bool.not_true, Bool.false_eq_true, if_false]
      exact (backward_loop_spec _ dy _ false dx x.length).1
    rw [List.getElem?_eq_none (by omega), List.getElem?_eq_none (by omega)]

theorem dropout_identity_at_zero_witness :
    ((newWorld 0 7 3).op.p_ = 0 ∧ (∀ g : Nat, (lcg.bernoulli 1 g).1 = true) ∧
      [(1 : ℚ), 2, 3, 4].length = [2, 2].prod ∧
      [(5 : ℚ), 6, 7, 8].length = [(1 : ℚ), 2, 3, 4].length ∧
      [(9 : ℚ), 9, 9, 9].length = [(1 : ℚ), 2, 3, 4].length) ∧
    ∃ w1, configure lcg (newWorld 0 7 3) 0 [2, 2] = .ok w1 ∧ w1.op.scale_ = 1 ∧
      (forward_impl lcg w1 [1, 2, 3, 4]).op.mask_.data
        = some (List.replicate [(1 : ℚ), 2, 3, 4].length 1) ∧
      (forward_impl lcg w1 [1, 2, 3, 4]).out.data = some [1, 2, 3, 4] ∧
      (backward_impl { forward_impl lcg w1 [1, 2, 3, 4] with dx := [9, 9, 9, 9] }
        [(1 : ℚ), 2, 3, 4].length [5, 6, 7, 8] true false).dx = [5, 6, 7, 8] :=
  have hB : ∀ g : Nat, (lcg.bernoulli 1 g).1 = true := by
    intro g
    have h : (((g % 100 : Nat) : ℚ)) / 100 < 1 := by
      rw [div_lt_one (by norm_num)]
      exact_mod_cast Nat.mod_lt g (by norm_num)
    simpa [lcg] using h
  ⟨⟨rfl, hB, rfl, rfl, rfl⟩,
    dropout_identity_at_zero lcg (newWorld 0 7 3) 0 [2, 2] [1, 2, 3, 4] [5, 6, 7, 8]
      [9, 9, 9, 9] rfl hB rfl rfl rfl⟩

end nbla
